import Mathlib

/-!
CanIF: segmentation of a payload into CAN frames.

A shallow embedding of `CanIF.cpp` / `CanIF.h` (class `CanIF`): the two
`WriteDataFrame` overloads and `CheckRTR`, with the object state passed
explicitly, the vendor driver taken as a parameter, and every access to the
frame buffer and to the payload memory checked (`none` is an access outside
the object, which is undefined behaviour in the C++ program).

Machine integers are natural numbers or integers with the reduction modulo
`2^32` (for `unsigned int`) or `2^8` (for `uint8_t`) written out.
-/

/-- Max number of CAN Bus Rx/Tx buffer (`#define CAN_BUFFER_SIZE 25`). -/
def CAN_BUFFER_SIZE : Nat := 25

/-- Modulus of `unsigned int` arithmetic. -/
def UINT_MOD : Nat := 4294967296

/-- Result code of the vendor driver calls. -/
abbrev NTCAN_RESULT := Nat

/-- Conversion of a value to `uint8_t`. -/
def toUInt8 (v : Nat) : Nat := v % 256

/-- The 32-bit word that represents an `int` (two's complement). -/
def toUInt32 (v : Int) : Nat := (v % 4294967296).toNat

/-- Modelled from the spec: the frame record `CMSG` of the vendor header
`ntcan.h`, which is not among the sources. It has the three fields the code
uses: the arbitration id (kept as its 32-bit word), the 8-bit `len` field
(data length in bits 0-3, RTR in bit 4) and the 8 data bytes. -/
structure CMSG where
  id : Nat
  len : Nat
  data : List Nat
deriving DecidableEq

/-- The member variables of class `CanIF` (CanIF.h). -/
structure CanIF where
  m_net : Int
  m_mode : Nat
  m_txqueuesize : Int
  m_rxqueuesize : Int
  m_txtimeout : Int
  m_rxtimeout : Int
  m_baud : Nat
  m_cmsg : List CMSG
  m_rtr : Int
  m_i : Int
  m_len : Int
  m_Canhandle : Nat
  m_retvalue : NTCAN_RESULT
  bExtended : Bool
deriving DecidableEq

/-- The part of the vendor driver that `WriteDataFrame` uses, as a parameter:
the result constant `NTCAN_OPERATION_ABORTED` and the send function
`canWrite(handle, cmsg, &len, nullptr)`, which reads the frames, and returns
its result code together with the value it leaves in `len`. -/
structure Ntcan where
  NTCAN_OPERATION_ABORTED : NTCAN_RESULT
  canWrite : Nat → List CMSG → Int → NTCAN_RESULT × Int

/-- One invocation of `canWrite`: the handle, the frame buffer and the frame
count handed to the driver. -/
structure TxCall where
  handle : Nat
  cmsg : List CMSG
  len : Int
deriving DecidableEq

/-- What a call of `WriteDataFrame` leaves behind: the returned result code,
the object state after the call, and the invocations of `canWrite` made. -/
structure Outcome where
  ret : NTCAN_RESULT
  self : CanIF
  tx : List TxCall
deriving DecidableEq

/-- The object layout: `m_cmsg` is an array of `CAN_BUFFER_SIZE` frames, each
with 8 data bytes. -/
def CanIF.wf (self : CanIF) : Prop :=
  self.m_cmsg.length = CAN_BUFFER_SIZE ∧ ∀ f ∈ self.m_cmsg, f.data.length = 8

instance (self : CanIF) : Decidable self.wf := by
  unfold CanIF.wf
  infer_instance

/-- The constructor `CanIF::CanIF`: it sets the six configuration members and
`bExtended`, and leaves the other members as the storage `uninit` has them. -/
def CanIF.construct (uninit : CanIF) (net : Int) (mode : Nat)
    (txqueuesize rxqueuesize txtimeout rxtimeout : Int) : CanIF :=
  { uninit with
    m_net := net
    m_mode := mode
    m_txqueuesize := txqueuesize
    m_rxqueuesize := rxqueuesize
    m_txtimeout := txtimeout
    m_rxtimeout := rxtimeout
    bExtended := false }

/-- The call `memcpy(dst, src + ptr, n)`: the first `n` bytes of `dst` are
replaced by the `n` bytes of `src` from offset `ptr` on; `none` when the bytes
read or written are not all inside their arrays. -/
def memcpy (dst src : List Nat) (ptr n : Nat) : Option (List Nat) :=
  if ptr + n ≤ src.length ∧ n ≤ dst.length then
    some ((src.drop ptr).take n ++ dst.drop n)
  else
    none

/-- The statement `m_cmsg[x].len |= m_cmsg[x].len + (rtr << 4);` on the
`uint8_t` field `len`, with `rtr` an `unsigned int`. -/
def orLenRtr (len rtr : Nat) : Nat :=
  toUInt8 (len ||| ((len + (rtr <<< 4) % UINT_MOD) % UINT_MOD))

/-- The body of the loop of `WriteDataFrame(ID, data, size, rtr)` at index `x`
with the read pointer at offset `ptr` of `data`. -/
def WriteDataFrame.body (ID rtr NumOfFrames Remainder : Nat) (data : List Nat)
    (x ptr : Nat) (m_cmsg : List CMSG) : Option (List CMSG) :=
  match m_cmsg[x]? with
  | none => none
  | some f =>
    let f := { f with id := ID % UINT_MOD }
    if x = (NumOfFrames + UINT_MOD - 1) % UINT_MOD then
      let f := { f with len := toUInt8 Remainder }
      let f := { f with len := orLenRtr f.len rtr }
      match memcpy f.data data ptr Remainder with
      | none => none
      | some d => some (m_cmsg.set x { f with data := d })
    else
      let f := { f with len := toUInt8 8 }
      let f := { f with len := orLenRtr f.len rtr }
      match memcpy f.data data ptr 8 with
      | none => none
      | some d => some (m_cmsg.set x { f with data := d })

/-- The loop `for (x = 0; x < NumOfFrames; x++) { ...; ptr += 8; }` of
`WriteDataFrame(ID, data, size, rtr)`: `loop k x ptr` runs the `k` iterations
that remain when the counter is `x`. -/
def WriteDataFrame.loop (ID rtr NumOfFrames Remainder : Nat) (data : List Nat) :
    Nat → Nat → Nat → List CMSG → Option (List CMSG)
  | 0, _, _, m_cmsg => some m_cmsg
  | k + 1, x, ptr, m_cmsg =>
    match WriteDataFrame.body ID rtr NumOfFrames Remainder data x ptr m_cmsg with
    | none => none
    | some m_cmsg1 =>
      WriteDataFrame.loop ID rtr NumOfFrames Remainder data k ((x + 1) % UINT_MOD) (ptr + 8) m_cmsg1

/-- The overload `CanIF::WriteDataFrame(unsigned int ID, char *data,
unsigned int size, unsigned int rtr)`. `data` is the memory that `data` points
to, as bytes. -/
def CanIF.WriteDataFrame (drv : Ntcan) (self : CanIF) (ID : Nat) (data : List Nat)
    (size rtr : Nat) : Option Outcome :=
  let NumOfFrames := size / 8
  let Remainder := size % 8
  if rtr = 1 then
    let self := { self with m_len := 1 }
    match self.m_cmsg[0]? with
    | none => none
    | some f =>
      let f := { f with id := ID % UINT_MOD }
      let f := { f with len := toUInt8 0 }
      let f := { f with len := orLenRtr f.len rtr }
      let self := { self with m_cmsg := self.m_cmsg.set 0 f }
      let r := drv.canWrite self.m_Canhandle self.m_cmsg self.m_len
      some { ret := r.1
             self := { self with m_len := r.2, m_retvalue := r.1 }
             tx := [{ handle := self.m_Canhandle, cmsg := self.m_cmsg, len := self.m_len }] }
  else
    let NumOfFrames := if Remainder > 0 then (NumOfFrames + 1) % UINT_MOD else NumOfFrames
    if NumOfFrames > CAN_BUFFER_SIZE then
      some { ret := drv.NTCAN_OPERATION_ABORTED, self := self, tx := [] }
    else
      let self := { self with m_len := (NumOfFrames : Int) }
      match WriteDataFrame.loop ID rtr NumOfFrames Remainder data NumOfFrames 0 0 self.m_cmsg with
      | none => none
      | some m_cmsg1 =>
        let self := { self with m_cmsg := m_cmsg1 }
        let r := drv.canWrite self.m_Canhandle self.m_cmsg self.m_len
        some { ret := r.1
               self := { self with m_len := r.2, m_retvalue := r.1 }
               tx := [{ handle := self.m_Canhandle, cmsg := self.m_cmsg, len := self.m_len }] }

/-- The body of the loop of `WriteDataFrame(data, size)` at index `x` with the
read pointer at offset `ptr` of `data`. -/
def WriteDataFrameNet.body (m_net : Int) (NumOfFrames Remainder : Nat) (data : List Nat)
    (x ptr : Nat) (m_cmsg : List CMSG) : Option (List CMSG) :=
  match m_cmsg[x]? with
  | none => none
  | some f =>
    let f := { f with id := toUInt32 m_net }
    if x = (NumOfFrames + UINT_MOD - 1) % UINT_MOD then
      let f := { f with len := toUInt8 Remainder }
      let f := { f with len := toUInt8 (f.len ||| (f.len + (0 <<< 4))) }
      match memcpy f.data data ptr Remainder with
      | none => none
      | some d => some (m_cmsg.set x { f with data := d })
    else
      let f := { f with len := toUInt8 8 }
      let f := { f with len := toUInt8 (f.len ||| (f.len + (0 <<< 4))) }
      match memcpy f.data data ptr 8 with
      | none => none
      | some d => some (m_cmsg.set x { f with data := d })

/-- The loop of `WriteDataFrame(data, size)`: `loop k x ptr` runs the `k`
iterations that remain when the counter is `x`. -/
def WriteDataFrameNet.loop (m_net : Int) (NumOfFrames Remainder : Nat) (data : List Nat) :
    Nat → Nat → Nat → List CMSG → Option (List CMSG)
  | 0, _, _, m_cmsg => some m_cmsg
  | k + 1, x, ptr, m_cmsg =>
    match WriteDataFrameNet.body m_net NumOfFrames Remainder data x ptr m_cmsg with
    | none => none
    | some m_cmsg1 =>
      WriteDataFrameNet.loop m_net NumOfFrames Remainder data k ((x + 1) % UINT_MOD) (ptr + 8) m_cmsg1

/-- The overload `CanIF::WriteDataFrame(char *data, unsigned int size)`, which
puts the object's `m_net` in the arbitration field. -/
def CanIF.WriteDataFrameNet (drv : Ntcan) (self : CanIF) (data : List Nat)
    (size : Nat) : Option Outcome :=
  let NumOfFrames := size / 8
  let Remainder := size % 8
  let NumOfFrames := if Remainder > 0 then (NumOfFrames + 1) % UINT_MOD else NumOfFrames
  if NumOfFrames > CAN_BUFFER_SIZE then
    some { ret := drv.NTCAN_OPERATION_ABORTED, self := self, tx := [] }
  else
    let self := { self with m_len := (NumOfFrames : Int) }
    match WriteDataFrameNet.loop self.m_net NumOfFrames Remainder data NumOfFrames 0 0 self.m_cmsg with
    | none => none
    | some m_cmsg1 =>
      let self := { self with m_cmsg := m_cmsg1 }
      let r := drv.canWrite self.m_Canhandle self.m_cmsg self.m_len
      some { ret := r.1
             self := { self with m_len := r.2, m_retvalue := r.1 }
             tx := [{ handle := self.m_Canhandle, cmsg := self.m_cmsg, len := self.m_len }] }

/-- The method `CanIF::CheckRTR(int index)`; `none` when `index` is outside
the frame buffer. The expression `(rtrExt >> 4) && 0x01` is the logical AND of
the source: 1 when both operands are non-zero, else 0. -/
def CanIF.CheckRTR (self : CanIF) (index : Int) : Option Bool :=
  if index < 0 then none
  else
    match self.m_cmsg[index.toNat]? with
    | none => none
    | some f =>
      let rtrExt := toUInt8 f.len
      let rtrExt := toUInt8 (if (rtrExt >>> 4) ≠ 0 ∧ (0x01 : Nat) ≠ 0 then 1 else 0)
      if rtrExt = 1 then some true else some false

/-- Modelled from the spec: ExtractPayload, which the source does not have as
a function: the first `len & 0x0F` data bytes of each of the first `m_len`
frames of the buffer, concatenated in buffer order. -/
def ExtractPayload : List CMSG → Nat → List Nat
  | [], _ => []
  | _ :: _, 0 => []
  | f :: fs, m_len + 1 => f.data.take (f.len &&& 0x0F) ++ ExtractPayload fs m_len

/-- A frame with id 0, len 0 and 8 zero data bytes. -/
def zeroFrame : CMSG := { id := 0, len := 0, data := List.replicate 8 0 }

/-- An object storage before construction, with all members zero. -/
def zeroStorage : CanIF :=
  { m_net := 0, m_mode := 0, m_txqueuesize := 0, m_rxqueuesize := 0, m_txtimeout := 0,
    m_rxtimeout := 0, m_baud := 0, m_cmsg := List.replicate CAN_BUFFER_SIZE zeroFrame,
    m_rtr := 0, m_i := 0, m_len := 0, m_Canhandle := 0, m_retvalue := 0, bExtended := false }

/-- A 16-byte payload, the bytes 1 to 16. -/
def payload16 : List Nat := [1, 2, 3, 4, 5, 6, 7, 8, 9, 10, 11, 12, 13, 14, 15, 16]

/-- A `CanIF` object on net 0, constructed over zeroed storage. -/
def sampleIF : CanIF := CanIF.construct zeroStorage 0 0 8 8 1000 1000

/-- A driver whose `canWrite` sends every frame and reports success (0), and
whose `NTCAN_OPERATION_ABORTED` is a non-zero code. -/
def sampleDrv : Ntcan :=
  { NTCAN_OPERATION_ABORTED := 8, canWrite := fun _ _ len => (0, len) }

/-- A driver whose `canWrite` sends nothing: it reports the error code 5 and
leaves 0 in `len`. -/
def failingDrv : Ntcan :=
  { NTCAN_OPERATION_ABORTED := 8, canWrite := fun _ _ _ => (5, 0) }

/-- The number of payload bytes that the loop copies at index `x`: `Remainder`
in the iteration with `x == NumOfFrames - 1`, and 8 in the others. -/
def chunkAt (NumOfFrames Remainder x : Nat) : Nat :=
  if x = (NumOfFrames + UINT_MOD - 1) % UINT_MOD then Remainder else 8

/-- The frame that iteration `x` of the loop of `WriteDataFrame(ID, data, size,
rtr)` leaves in slot `x`, when the slot held `old` before. -/
def frameAt (ID rtr NumOfFrames Remainder : Nat) (data : List Nat) (x : Nat) (old : CMSG) : CMSG :=
  { id := ID % UINT_MOD
    len := orLenRtr (toUInt8 (chunkAt NumOfFrames Remainder x)) rtr
    data := (data.drop (8 * x)).take (chunkAt NumOfFrames Remainder x) ++
      old.data.drop (chunkAt NumOfFrames Remainder x) }

/-- The frame count that both overloads compute from `size`. -/
def frameCount (size : Nat) : Nat :=
  if size % 8 > 0 then (size / 8 + 1) % UINT_MOD else size / 8

/-- The outcome of the sending path: `canWrite` is invoked once with the handle,
the built buffer and the built frame count; its result is stored in
`m_retvalue` and returned, and `m_len` holds what `canWrite` left in it. -/
def sent (drv : Ntcan) (self : CanIF) (m_cmsg : List CMSG) (m_len : Int) : Outcome :=
  { ret := (drv.canWrite self.m_Canhandle m_cmsg m_len).1
    self := { self with
      m_cmsg := m_cmsg
      m_len := (drv.canWrite self.m_Canhandle m_cmsg m_len).2
      m_retvalue := (drv.canWrite self.m_Canhandle m_cmsg m_len).1 }
    tx := [{ handle := self.m_Canhandle, cmsg := m_cmsg, len := m_len }] }

/-- The outcome of the abort path: the constant is returned, the object is as
it was, and `canWrite` is not invoked. -/
def aborted (drv : Ntcan) (self : CanIF) : Outcome :=
  { ret := drv.NTCAN_OPERATION_ABORTED, self := self, tx := [] }

/-! ## The loop -/

theorem body_eq (ID rtr NumOfFrames Remainder : Nat) (data : List Nat) (x : Nat)
    (m_cmsg : List CMSG) (old : CMSG) (hx : m_cmsg[x]? = some old)
    (hsrc : 8 * x + chunkAt NumOfFrames Remainder x ≤ data.length)
    (hdst : chunkAt NumOfFrames Remainder x ≤ old.data.length) :
    WriteDataFrame.body ID rtr NumOfFrames Remainder data x (8 * x) m_cmsg =
      some (m_cmsg.set x (frameAt ID rtr NumOfFrames Remainder data x old)) := by
  unfold WriteDataFrame.body
  rw [hx]
  by_cases hlast : x = (NumOfFrames + UINT_MOD - 1) % UINT_MOD
  · have hc : chunkAt NumOfFrames Remainder x = Remainder := by simp [chunkAt, hlast]
    rw [hc] at hsrc hdst
    simp only [if_pos hlast, memcpy, hsrc, hdst, and_self, if_true, frameAt, hc]
  · have hc : chunkAt NumOfFrames Remainder x = 8 := by simp [chunkAt, hlast]
    rw [hc] at hsrc hdst
    simp only [if_neg hlast, memcpy, hsrc, hdst, and_self, if_true, frameAt, hc]

theorem frameAt_data_length (ID rtr NumOfFrames Remainder : Nat) (data : List Nat) (x : Nat)
    (old : CMSG) (hold : old.data.length = 8)
    (hsrc : 8 * x + chunkAt NumOfFrames Remainder x ≤ data.length)
    (hdst : chunkAt NumOfFrames Remainder x ≤ 8) :
    (frameAt ID rtr NumOfFrames Remainder data x old).data.length = 8 := by
  simp only [frameAt, List.length_append, List.length_take, List.length_drop, hold]
  omega

theorem loop_spec (ID rtr NumOfFrames Remainder : Nat) (data : List Nat) :
    ∀ (k x : Nat) (m_cmsg : List CMSG),
      x + k ≤ m_cmsg.length → m_cmsg.length < UINT_MOD →
      (∀ (j : Nat) (f : CMSG), m_cmsg[j]? = some f → f.data.length = 8) →
      (∀ j, x ≤ j → j < x + k →
        8 * j + chunkAt NumOfFrames Remainder j ≤ data.length ∧
        chunkAt NumOfFrames Remainder j ≤ 8) →
      ∃ out, WriteDataFrame.loop ID rtr NumOfFrames Remainder data k x (8 * x) m_cmsg = some out ∧
        out.length = m_cmsg.length ∧
        ∀ j, out[j]? = if x ≤ j ∧ j < x + k then
            (m_cmsg[j]?).map (frameAt ID rtr NumOfFrames Remainder data j)
          else m_cmsg[j]? := by
  intro k
  induction k with
  | zero =>
    intro x m_cmsg _ _ _ _
    refine ⟨m_cmsg, rfl, rfl, ?_⟩
    intro j
    have hno : ¬ (x ≤ j ∧ j < x + 0) := by omega
    rw [if_neg hno]
  | succ k ih =>
    intro x m_cmsg hlen hmod hdata hsrc
    have hxlt : x < m_cmsg.length := by omega
    obtain ⟨old, hold⟩ : ∃ old, m_cmsg[x]? = some old := ⟨m_cmsg[x], by simp [hxlt]⟩
    have hb := hsrc x (Nat.le_refl x) (by omega)
    have hbody := body_eq ID rtr NumOfFrames Remainder data x m_cmsg old hold hb.1
      (by rw [hdata x old hold]; exact hb.2)
    have hstep : (x + 1) % UINT_MOD = x + 1 := Nat.mod_eq_of_lt (by omega)
    have hptr : 8 * x + 8 = 8 * (x + 1) := by ring
    obtain ⟨out, hout, houtlen, hget⟩ := ih (x + 1)
      (m_cmsg.set x (frameAt ID rtr NumOfFrames Remainder data x old))
      (by simp; omega) (by simpa using hmod)
      (by
        intro j f hj
        rw [List.getElem?_set] at hj
        by_cases hjx : x = j
        · simp [hjx] at hj
          obtain ⟨_, rfl⟩ := hj
          subst hjx
          exact frameAt_data_length ID rtr NumOfFrames Remainder data x old
            (hdata x old hold) hb.1 hb.2
        · simp [hjx] at hj
          exact hdata j f hj)
      (by intro j h1 h2; exact hsrc j (by omega) (by omega))
    refine ⟨out, ?_, by simpa using houtlen, ?_⟩
    · simp only [WriteDataFrame.loop, hbody, hstep, hptr]
      exact hout
    · intro j
      rw [hget j, List.getElem?_set]
      by_cases hjx : x = j
      · subst hjx
        have h1 : ¬ (x + 1 ≤ x ∧ x < x + 1 + k) := by omega
        have h2 : x ≤ x ∧ x < x + (k + 1) := by omega
        simp [h1, h2, hxlt, hold]
      · by_cases hc : x + 1 ≤ j ∧ j < x + 1 + k
        · have h2 : x ≤ j ∧ j < x + (k + 1) := by omega
          simp [hc, h2, hjx]
        · have h2 : ¬ (x ≤ j ∧ j < x + (k + 1)) := by omega
          simp [hc, h2, hjx]

theorem orLenRtr_zero (v : Nat) :
    toUInt8 (toUInt8 v ||| (toUInt8 v + (0 <<< 4))) = orLenRtr (toUInt8 v) 0 := by
  have h : toUInt8 v < 256 := Nat.mod_lt _ (by decide)
  have h2 : (toUInt8 v + (0 <<< 4) % UINT_MOD) % UINT_MOD = toUInt8 v + (0 <<< 4) := by
    simp only [UINT_MOD, Nat.zero_shiftLeft, Nat.zero_mod, Nat.add_zero]
    exact Nat.mod_eq_of_lt (by omega)
  simp only [orLenRtr, h2]

theorem toUInt32_mod (v : Int) : toUInt32 v % UINT_MOD = toUInt32 v := by
  apply Nat.mod_eq_of_lt
  unfold toUInt32 UINT_MOD
  have h1 : 0 ≤ v % 4294967296 := Int.emod_nonneg _ (by decide)
  have h2 : v % 4294967296 < 4294967296 := Int.emod_lt_of_pos _ (by decide)
  omega

theorem bodyNet_eq (m_net : Int) (NumOfFrames Remainder : Nat) (data : List Nat)
    (x ptr : Nat) (m_cmsg : List CMSG) :
    WriteDataFrameNet.body m_net NumOfFrames Remainder data x ptr m_cmsg =
      WriteDataFrame.body (toUInt32 m_net) 0 NumOfFrames Remainder data x ptr m_cmsg := by
  simp only [WriteDataFrameNet.body, WriteDataFrame.body, orLenRtr_zero, toUInt32_mod]

theorem loopNet_eq (m_net : Int) (NumOfFrames Remainder : Nat) (data : List Nat) :
    ∀ (k x ptr : Nat) (m_cmsg : List CMSG),
      WriteDataFrameNet.loop m_net NumOfFrames Remainder data k x ptr m_cmsg =
        WriteDataFrame.loop (toUInt32 m_net) 0 NumOfFrames Remainder data k x ptr m_cmsg := by
  intro k
  induction k with
  | zero => intro x ptr m_cmsg; rfl
  | succ k ih =>
    intro x ptr m_cmsg
    simp only [WriteDataFrameNet.loop, WriteDataFrame.loop, bodyNet_eq]
    cases WriteDataFrame.body (toUInt32 m_net) 0 NumOfFrames Remainder data x ptr m_cmsg with
    | none => rfl
    | some b => exact ih _ _ b

/-! ## Frame count and chunk sizes -/

theorem frameCount_eq (size : Nat) (h : size < UINT_MOD) :
    frameCount size = size / 8 + (if size % 8 > 0 then 1 else 0) := by
  unfold frameCount
  unfold UINT_MOD at *
  split
  · exact Nat.mod_eq_of_lt (by omega)
  · rfl

theorem frameCount_le_iff (size : Nat) (h : size < UINT_MOD) :
    frameCount size ≤ CAN_BUFFER_SIZE ↔ size ≤ 200 := by
  rw [frameCount_eq size h]
  unfold CAN_BUFFER_SIZE
  split <;> omega

theorem chunkAt_frameCount (size j : Nat) (h : size < UINT_MOD) (hj : j < frameCount size) :
    chunkAt (frameCount size) (size % 8) j = if j + 1 = frameCount size then size % 8 else 8 := by
  have hN := frameCount_eq size h
  have hlast : (frameCount size + UINT_MOD - 1) % UINT_MOD = frameCount size - 1 := by
    have : frameCount size + UINT_MOD - 1 = (frameCount size - 1) + UINT_MOD := by omega
    rw [this, Nat.add_mod_right]
    apply Nat.mod_eq_of_lt
    rw [hN]
    unfold UINT_MOD at *
    split <;> omega
  unfold chunkAt
  rw [hlast]
  by_cases hc : j + 1 = frameCount size
  · have hj1 : j = frameCount size - 1 := by omega
    rw [if_pos hj1, if_pos hc]
  · have hj1 : ¬ j = frameCount size - 1 := by omega
    rw [if_neg hj1, if_neg hc]

theorem chunkAt_bounds (size j : Nat) (h : size < UINT_MOD) (hj : j < frameCount size) :
    8 * j + chunkAt (frameCount size) (size % 8) j ≤ size ∧
      chunkAt (frameCount size) (size % 8) j ≤ 8 := by
  rw [chunkAt_frameCount size j h hj]
  have hN := frameCount_eq size h
  rw [hN] at hj ⊢
  by_cases hr : size % 8 > 0
  · simp only [hr, if_true] at hj ⊢
    split <;> omega
  · simp only [hr, if_false] at hj ⊢
    split <;> omega

theorem wf_getElem (self : CanIF) (hwf : self.wf) (j : Nat) (f : CMSG)
    (hj : self.m_cmsg[j]? = some f) : f.data.length = 8 := by
  obtain ⟨hlt, rfl⟩ := List.getElem?_eq_some.mp hj
  exact hwf.2 _ (List.getElem_mem hlt)

/-- The segmentation branch of `WriteDataFrame(ID, data, size, rtr)`: the call
returns through `canWrite`, and slot `j` of the buffer handed over is
`frameAt` of the old slot for `j` below the frame count, and the old slot
otherwise. -/
theorem WriteDataFrame_segment (drv : Ntcan) (self : CanIF) (ID : Nat) (data : List Nat)
    (size rtr : Nat) (hwf : self.wf) (hrtr : rtr ≠ 1) (hsize : size ≤ 200)
    (hdata : data.length = size) :
    ∃ out, self.WriteDataFrame drv ID data size rtr =
        some (sent drv self out (frameCount size : Nat)) ∧
      out.length = CAN_BUFFER_SIZE ∧
      ∀ j, out[j]? = if j < frameCount size then
          (self.m_cmsg[j]?).map (frameAt ID rtr (frameCount size) (size % 8) data j)
        else self.m_cmsg[j]? := by
  have hlt : size < UINT_MOD := by unfold UINT_MOD; omega
  have hcnt : frameCount size ≤ CAN_BUFFER_SIZE := (frameCount_le_iff size hlt).mpr hsize
  obtain ⟨out, hout, houtlen, hget⟩ := loop_spec ID rtr (frameCount size) (size % 8) data
    (frameCount size) 0 self.m_cmsg (by rw [hwf.1]; omega)
    (by rw [hwf.1]; unfold CAN_BUFFER_SIZE UINT_MOD; omega)
    (wf_getElem self hwf)
    (by
      intro j _ hj
      rw [hdata]
      exact chunkAt_bounds size j hlt (by omega))
  refine ⟨out, ?_, by rw [houtlen, hwf.1], ?_⟩
  · have hnot : ¬ frameCount size > CAN_BUFFER_SIZE := by omega
    simp only [Nat.mul_zero] at hout
    unfold CanIF.WriteDataFrame
    simp only [if_neg hrtr]
    unfold frameCount at hout hnot ⊢
    rw [if_neg hnot]
    simp only [hout, sent]
  · intro j
    rw [hget j]
    simp

/-- The overload without an ID argument runs as the overload with one, on
the 32-bit word of `m_net` and with `rtr = 0`. -/
theorem WriteDataFrameNet_eq (drv : Ntcan) (self : CanIF) (data : List Nat) (size : Nat) :
    self.WriteDataFrameNet drv data size =
      self.WriteDataFrame drv (toUInt32 self.m_net) data size 0 := by
  have h01 : ¬ (0 : Nat) = 1 := by decide
  unfold CanIF.WriteDataFrameNet CanIF.WriteDataFrame
  simp only [if_neg h01, loopNet_eq]

/-- The RTR branch of `WriteDataFrame(ID, data, size, rtr)`: slot 0 gets the id
and `len = 0x10`, and `canWrite` is handed one frame. -/
theorem WriteDataFrame_rtr (drv : Ntcan) (self : CanIF) (ID : Nat) (data : List Nat)
    (size : Nat) (hwf : self.wf) :
    ∃ old, self.m_cmsg[0]? = some old ∧
      self.WriteDataFrame drv ID data size 1 =
        some (sent drv self (self.m_cmsg.set 0 { old with id := ID % UINT_MOD, len := 16 }) 1) := by
  have hlen : 0 < self.m_cmsg.length := by rw [hwf.1]; decide
  refine ⟨self.m_cmsg[0], by simp [hlen], ?_⟩
  have hold : self.m_cmsg[0]? = some self.m_cmsg[0] := by simp [hlen]
  have h16 : orLenRtr (toUInt8 0) 1 = 16 := by decide
  unfold CanIF.WriteDataFrame
  simp only [if_true, hold, h16, sent]

/-- The abort path of `WriteDataFrame(ID, data, size, rtr)`. -/
theorem WriteDataFrame_abort (drv : Ntcan) (self : CanIF) (ID : Nat) (data : List Nat)
    (size rtr : Nat) (hrtr : rtr ≠ 1) (hlt : size < UINT_MOD) (hsize : 200 < size) :
    self.WriteDataFrame drv ID data size rtr = some (aborted drv self) := by
  have hcnt : frameCount size > CAN_BUFFER_SIZE := by
    have := frameCount_le_iff size hlt
    omega
  unfold CanIF.WriteDataFrame
  simp only [if_neg hrtr]
  unfold frameCount at hcnt
  rw [if_pos hcnt]
  rfl

theorem sent_ne_aborted (drv : Ntcan) (self : CanIF) (m_cmsg : List CMSG) (m_len : Int) :
    sent drv self m_cmsg m_len ≠ aborted drv self := by
  intro h
  have htx := congrArg Outcome.tx h
  simp [sent, aborted] at htx

/-- The low nibble and bit 4 of the `len` that the loop writes when `rtr = 0`. -/
theorem orLenRtr_chunk (c : Nat) (hc : c ≤ 8) : orLenRtr (toUInt8 c) 0 = c := by
  interval_cases c <;> decide

theorem frameAt_old_drop (old : CMSG) (hold : old.data.length = 8) : old.data.drop 8 = [] := by
  apply List.drop_eq_nil_of_le
  omega

/-- C2: for a payload of length n <= 200 with n % 8 != 0 sent with rtr = 0, the
call returns through canWrite, every frame x before the last has data-length
nibble 8 and data bytes payload[8x .. 8x+8), and the last frame has nibble
n % 8 and its first n % 8 data bytes are payload[8*(count-1) .. n). -/
theorem C2_payload_order (drv : Ntcan) (self : CanIF) (ID : Nat) (data : List Nat) (n : Nat)
    (hwf : self.wf) (hn : n ≤ 200) (hrem : n % 8 ≠ 0) (hdata : data.length = n) :
    ∃ o, self.WriteDataFrame drv ID data n 0 = some o ∧
      o.tx = [{ handle := self.m_Canhandle, cmsg := o.self.m_cmsg, len := ((n / 8 + 1 : Nat) : Int) }] ∧
      ∀ x, x < n / 8 + 1 → ∃ f, o.self.m_cmsg[x]? = some f ∧
        (x < n / 8 → f.len &&& 0x0F = 8 ∧ f.data = (data.drop (8 * x)).take 8) ∧
        (x = n / 8 → f.len &&& 0x0F = n % 8 ∧
          f.data.take (n % 8) = data.drop (8 * (n / 8 + 1 - 1))) := by
  have hlt : n < UINT_MOD := by unfold UINT_MOD; omega
  have hcount : frameCount n = n / 8 + 1 := by
    rw [frameCount_eq n hlt, if_pos (by omega)]
  obtain ⟨out, hcall, houtlen, hget⟩ :=
    WriteDataFrame_segment drv self ID data n 0 hwf (by decide) hn hdata
  rw [hcount] at hcall hget
  refine ⟨_, hcall, rfl, ?_⟩
  intro x hx
  have hxlen : x < self.m_cmsg.length := by rw [hwf.1]; unfold CAN_BUFFER_SIZE; omega
  have hold : self.m_cmsg[x]? = some self.m_cmsg[x] := by simp [hxlen]
  have hold8 := wf_getElem self hwf x _ hold
  have hchunk := chunkAt_frameCount n x hlt (by omega)
  rw [hcount] at hchunk
  refine ⟨frameAt ID 0 (n / 8 + 1) (n % 8) data x self.m_cmsg[x], ?_, ?_, ?_⟩
  · show out[x]? = _
    rw [hget x, if_pos hx, hold]
    rfl
  · intro hxl
    have hc : chunkAt (n / 8 + 1) (n % 8) x = 8 := by
      rw [hchunk, if_neg (by omega)]
    simp only [frameAt, hc, orLenRtr_chunk 8 (by decide), frameAt_old_drop _ hold8,
      List.append_nil]
    exact ⟨by decide, trivial⟩
  · intro hxl
    have hc : chunkAt (n / 8 + 1) (n % 8) x = n % 8 := by
      rw [hchunk, if_pos (by omega)]
    have hr8 : n % 8 < 8 := Nat.mod_lt _ (by decide)
    simp only [frameAt, hc, orLenRtr_chunk (n % 8) (by omega)]
    constructor
    · have : n % 8 &&& 0x0F = n % 8 := by
        generalize n % 8 = r at hr8
        interval_cases r <;> decide
      exact this
    · subst hxl
      have hlen : ((data.drop (8 * (n / 8))).take (n % 8)).length = n % 8 := by
        simp only [List.length_take, List.length_drop, hdata]
        omega
      rw [List.take_append_of_le_length (by omega), List.take_of_length_le (by omega)]
      have h1 : n / 8 + 1 - 1 = n / 8 := by omega
      rw [h1]
      apply List.take_of_length_le
      simp only [List.length_drop, hdata]
      omega

/-- Witness of C2 (the scenario of the specification): 20 bytes with ID 0x100
give 3 frames with chunks 8, 8, 4. -/
theorem C2_payload_order_witness :
    sampleIF.wf ∧ 20 ≤ 200 ∧ 20 % 8 ≠ 0 ∧ (List.range 20).length = 20 ∧
    ∃ o, sampleIF.WriteDataFrame sampleDrv 0x100 (List.range 20) 20 0 = some o ∧
      o.tx = [{ handle := sampleIF.m_Canhandle, cmsg := o.self.m_cmsg,
                len := ((20 / 8 + 1 : Nat) : Int) }] ∧
      ∀ x, x < 20 / 8 + 1 → ∃ f, o.self.m_cmsg[x]? = some f ∧
        (x < 20 / 8 → f.len &&& 0x0F = 8 ∧ f.data = ((List.range 20).drop (8 * x)).take 8) ∧
        (x = 20 / 8 → f.len &&& 0x0F = 20 % 8 ∧
          f.data.take (20 % 8) = (List.range 20).drop (8 * (20 / 8 + 1 - 1))) :=
  ⟨by decide, by decide, by decide, by decide,
    C2_payload_order sampleDrv sampleIF 0x100 (List.range 20) 20
      (by decide) (by decide) (by decide) (by decide)⟩

/-- C3: for a payload of length n <= 200 sent with rtr = 0, by either overload,
the call returns through canWrite and the frame count stored in m_len and
handed to canWrite is n / 8 + (1 if n % 8 > 0 else 0); for n = 0 that count is
0 and no frame of the buffer is written. -/
theorem C3_frame_count (drv : Ntcan) (self : CanIF) (ID : Nat) (data : List Nat) (n : Nat)
    (hwf : self.wf) (hn : n ≤ 200) (hdata : data.length = n) :
    (∃ o, self.WriteDataFrame drv ID data n 0 = some o ∧
      o.tx = [{ handle := self.m_Canhandle, cmsg := o.self.m_cmsg,
                len := ((n / 8 + (if n % 8 > 0 then 1 else 0) : Nat) : Int) }] ∧
      (n = 0 → o.tx.map TxCall.len = [0] ∧ o.self.m_cmsg = self.m_cmsg)) ∧
    (∃ o, self.WriteDataFrameNet drv data n = some o ∧
      o.tx = [{ handle := self.m_Canhandle, cmsg := o.self.m_cmsg,
                len := ((n / 8 + (if n % 8 > 0 then 1 else 0) : Nat) : Int) }] ∧
      (n = 0 → o.tx.map TxCall.len = [0] ∧ o.self.m_cmsg = self.m_cmsg)) := by
  have hlt : n < UINT_MOD := by unfold UINT_MOD; omega
  have hcount := frameCount_eq n hlt
  have key : ∀ ID : Nat, ∃ o, self.WriteDataFrame drv ID data n 0 = some o ∧
      o.tx = [{ handle := self.m_Canhandle, cmsg := o.self.m_cmsg,
                len := ((n / 8 + (if n % 8 > 0 then 1 else 0) : Nat) : Int) }] ∧
      (n = 0 → o.tx.map TxCall.len = [0] ∧ o.self.m_cmsg = self.m_cmsg) := by
    intro ID
    obtain ⟨out, hcall, houtlen, hget⟩ :=
      WriteDataFrame_segment drv self ID data n 0 hwf (by decide) hn hdata
    rw [hcount] at hcall
    refine ⟨_, hcall, rfl, ?_⟩
    intro h0
    subst h0
    refine ⟨by simp [sent], ?_⟩
    show out = self.m_cmsg
    apply List.ext_getElem?
    intro j
    rw [hget j, if_neg (by rw [hcount]; simp)]
  refine ⟨key ID, ?_⟩
  rw [WriteDataFrameNet_eq]
  exact key _

/-- Witness of C3: the empty payload gives the count 0 and leaves the buffer
as it was. -/
theorem C3_frame_count_witness :
    sampleIF.wf ∧ 0 ≤ 200 ∧ ([] : List Nat).length = 0 ∧
    ((∃ o, sampleIF.WriteDataFrame sampleDrv 0x100 [] 0 0 = some o ∧
      o.tx = [{ handle := sampleIF.m_Canhandle, cmsg := o.self.m_cmsg,
                len := ((0 / 8 + (if 0 % 8 > 0 then 1 else 0) : Nat) : Int) }] ∧
      (0 = 0 → o.tx.map TxCall.len = [0] ∧ o.self.m_cmsg = sampleIF.m_cmsg)) ∧
    (∃ o, sampleIF.WriteDataFrameNet sampleDrv [] 0 = some o ∧
      o.tx = [{ handle := sampleIF.m_Canhandle, cmsg := o.self.m_cmsg,
                len := ((0 / 8 + (if 0 % 8 > 0 then 1 else 0) : Nat) : Int) }] ∧
      (0 = 0 → o.tx.map TxCall.len = [0] ∧ o.self.m_cmsg = sampleIF.m_cmsg))) :=
  ⟨by decide, by decide, by decide,
    C3_frame_count sampleDrv sampleIF 0x100 [] 0 (by decide) (by decide) (by decide)⟩

/-- C5: for every 32-bit payload length n sent with rtr = 0, by either
overload, the call takes the abort path exactly when n > 200: it then returns
NTCAN_OPERATION_ABORTED, leaves the whole object (m_cmsg and m_len with it)
unchanged and does not invoke canWrite; for n <= 200 it invokes canWrite. -/
theorem C5_oversize_abort (drv : Ntcan) (self : CanIF) (ID : Nat) (data : List Nat) (n : Nat)
    (hwf : self.wf) (hn : n < 4294967296) (hdata : data.length = n) :
    (200 < n ↔ self.WriteDataFrame drv ID data n 0 =
      some { ret := drv.NTCAN_OPERATION_ABORTED, self := self, tx := [] }) ∧
    (200 < n ↔ self.WriteDataFrameNet drv data n =
      some { ret := drv.NTCAN_OPERATION_ABORTED, self := self, tx := [] }) ∧
    (n ≤ 200 → ∃ o c, self.WriteDataFrame drv ID data n 0 = some o ∧ o.tx = [c]) ∧
    (n ≤ 200 → ∃ o c, self.WriteDataFrameNet drv data n = some o ∧ o.tx = [c]) := by
  have key : ∀ ID : Nat,
      (200 < n ↔ self.WriteDataFrame drv ID data n 0 =
        some { ret := drv.NTCAN_OPERATION_ABORTED, self := self, tx := [] }) ∧
      (n ≤ 200 → ∃ o c, self.WriteDataFrame drv ID data n 0 = some o ∧ o.tx = [c]) := by
    intro ID
    have hsend : n ≤ 200 → ∃ out, self.WriteDataFrame drv ID data n 0 =
        some (sent drv self out (frameCount n : Nat)) := by
      intro hle
      obtain ⟨out, hcall, _, _⟩ :=
        WriteDataFrame_segment drv self ID data n 0 hwf (by decide) hle hdata
      exact ⟨out, hcall⟩
    refine ⟨⟨?_, ?_⟩, ?_⟩
    · intro hgt
      exact WriteDataFrame_abort drv self ID data n 0 (by decide) hn hgt
    · intro hcall
      by_contra hle
      obtain ⟨out, hs⟩ := hsend (by omega)
      rw [hs] at hcall
      exact sent_ne_aborted drv self out _ (Option.some.inj hcall)
    · intro hle
      obtain ⟨out, hs⟩ := hsend hle
      exact ⟨_, _, hs, rfl⟩
  refine ⟨(key ID).1, ?_, (key ID).2, ?_⟩
  · rw [WriteDataFrameNet_eq]
    exact (key _).1
  · rw [WriteDataFrameNet_eq]
    exact (key _).2

/-- Witness of C5: 201 bytes are refused. -/
theorem C5_oversize_abort_witness :
    sampleIF.wf ∧ 201 < 4294967296 ∧ (List.replicate 201 7).length = 201 ∧
    ((200 < 201 ↔ sampleIF.WriteDataFrame sampleDrv 0x100 (List.replicate 201 7) 201 0 =
      some { ret := sampleDrv.NTCAN_OPERATION_ABORTED, self := sampleIF, tx := [] }) ∧
    (200 < 201 ↔ sampleIF.WriteDataFrameNet sampleDrv (List.replicate 201 7) 201 =
      some { ret := sampleDrv.NTCAN_OPERATION_ABORTED, self := sampleIF, tx := [] }) ∧
    (201 ≤ 200 → ∃ o c,
      sampleIF.WriteDataFrame sampleDrv 0x100 (List.replicate 201 7) 201 0 = some o ∧ o.tx = [c]) ∧
    (201 ≤ 200 → ∃ o c,
      sampleIF.WriteDataFrameNet sampleDrv (List.replicate 201 7) 201 = some o ∧ o.tx = [c])) :=
  ⟨by decide, by decide, List.length_replicate 201 7,
    C5_oversize_abort sampleDrv sampleIF 0x100 (List.replicate 201 7) 201
      (by decide) (by decide) (List.length_replicate 201 7)⟩

/-- What `CheckRTR` computes from the frame at `index`: true exactly when the
`uint8_t` value of `len`, shifted right by 4, is non-zero. -/
theorem CheckRTR_of_getElem (self : CanIF) (i : Nat) (f : CMSG)
    (hf : self.m_cmsg[i]? = some f) :
    self.CheckRTR (i : Int) = some (decide ((toUInt8 f.len) >>> 4 ≠ 0)) := by
  have hneg : ¬ ((i : Int) < 0) := by omega
  unfold CanIF.CheckRTR
  simp only [if_neg hneg, Int.toNat_ofNat, hf]
  by_cases h : (toUInt8 f.len) >>> 4 ≠ 0
  · have h1 : (toUInt8 f.len) >>> 4 ≠ 0 ∧ (0x01 : Nat) ≠ 0 := ⟨h, by decide⟩
    rw [if_pos h1, decide_eq_true h]
    rfl
  · have h1 : ¬ ((toUInt8 f.len) >>> 4 ≠ 0 ∧ (0x01 : Nat) ≠ 0) := fun hc => h hc.1
    rw [if_neg h1, decide_eq_false h]
    rfl

/-- C6: for every ID, payload and size (also above 200), WriteDataFrame with
rtr = 1 returns through canWrite with a frame count of 1; frame 0 has the
given ID, data-length nibble 0 and bit 4 of len set, the outcome does not
depend on the payload or the size, and CheckRTR(0) on the result is true. -/
theorem C6_rtr_encode (drv : Ntcan) (self : CanIF) (ID : Nat) (data : List Nat) (size : Nat)
    (hwf : self.wf) (hID : ID < 4294967296) :
    ∃ o f, self.WriteDataFrame drv ID data size 1 = some o ∧
      o.tx = [{ handle := self.m_Canhandle, cmsg := o.self.m_cmsg, len := 1 }] ∧
      o.self.m_cmsg[0]? = some f ∧
      f.id = ID ∧ f.len &&& 0x0F = 0 ∧ f.len &&& 0x10 = 0x10 ∧
      o.self.CheckRTR 0 = some true ∧
      self.WriteDataFrame drv ID data size 1 = self.WriteDataFrame drv ID [] 0 1 := by
  obtain ⟨old, hold, hcall⟩ := WriteDataFrame_rtr drv self ID data size hwf
  obtain ⟨old2, hold2, hcall2⟩ := WriteDataFrame_rtr drv self ID [] 0 hwf
  have hsame : old2 = old := by
    rw [hold] at hold2
    exact (Option.some.inj hold2).symm
  subst hsame
  have hlen : 0 < self.m_cmsg.length := by rw [hwf.1]; decide
  have hget : (self.m_cmsg.set 0 { old2 with id := ID % UINT_MOD, len := 16 })[0]? =
      some { old2 with id := ID % UINT_MOD, len := 16 } := List.getElem?_set_self hlen
  refine ⟨_, { old2 with id := ID % UINT_MOD, len := 16 }, hcall, rfl, hget, ?_, ?_, ?_, ?_, ?_⟩
  · exact Nat.mod_eq_of_lt hID
  · show (16 : Nat) &&& 0x0F = 0
    decide
  · show (16 : Nat) &&& 0x10 = 0x10
    decide
  · have h := CheckRTR_of_getElem
      (sent drv self (self.m_cmsg.set 0 { old2 with id := ID % UINT_MOD, len := 16 }) 1).self
      0 _ hget
    have h0 : ((0 : Nat) : Int) = 0 := rfl
    rw [h0] at h
    rw [h]
    show some (decide (toUInt8 16 >>> 4 ≠ 0)) = some true
    decide
  · rw [hcall, hcall2]

/-- Witness of C6: an RTR request for ID 0x100 with a 300-byte size. -/
theorem C6_rtr_encode_witness :
    sampleIF.wf ∧ 0x100 < 4294967296 ∧
    ∃ o f, sampleIF.WriteDataFrame sampleDrv 0x100 [1, 2, 3] 300 1 = some o ∧
      o.tx = [{ handle := sampleIF.m_Canhandle, cmsg := o.self.m_cmsg, len := 1 }] ∧
      o.self.m_cmsg[0]? = some f ∧
      f.id = 0x100 ∧ f.len &&& 0x0F = 0 ∧ f.len &&& 0x10 = 0x10 ∧
      o.self.CheckRTR 0 = some true ∧
      sampleIF.WriteDataFrame sampleDrv 0x100 [1, 2, 3] 300 1 =
        sampleIF.WriteDataFrame sampleDrv 0x100 [] 0 1 :=
  ⟨by decide, by decide,
    C6_rtr_encode sampleDrv sampleIF 0x100 [1, 2, 3] 300 (by decide) (by decide)⟩

/-- C7: for a payload of length n <= 200 sent with rtr = 0, by either overload,
the call returns through canWrite and CheckRTR(i) on the resulting object is
false for every index i below the produced frame count. -/
theorem C7_data_frames_not_rtr (drv : Ntcan) (self : CanIF) (ID : Nat) (data : List Nat)
    (n : Nat) (hwf : self.wf) (hn : n ≤ 200) (hdata : data.length = n) :
    (∃ o, self.WriteDataFrame drv ID data n 0 = some o ∧
      o.tx.map TxCall.len = [((n / 8 + (if n % 8 > 0 then 1 else 0) : Nat) : Int)] ∧
      ∀ i : Nat, i < n / 8 + (if n % 8 > 0 then 1 else 0) →
        o.self.CheckRTR (i : Int) = some false) ∧
    (∃ o, self.WriteDataFrameNet drv data n = some o ∧
      o.tx.map TxCall.len = [((n / 8 + (if n % 8 > 0 then 1 else 0) : Nat) : Int)] ∧
      ∀ i : Nat, i < n / 8 + (if n % 8 > 0 then 1 else 0) →
        o.self.CheckRTR (i : Int) = some false) := by
  have hlt : n < UINT_MOD := by unfold UINT_MOD; omega
  have hcount := frameCount_eq n hlt
  have key : ∀ ID : Nat, ∃ o, self.WriteDataFrame drv ID data n 0 = some o ∧
      o.tx.map TxCall.len = [((n / 8 + (if n % 8 > 0 then 1 else 0) : Nat) : Int)] ∧
      ∀ i : Nat, i < n / 8 + (if n % 8 > 0 then 1 else 0) →
        o.self.CheckRTR (i : Int) = some false := by
    intro ID
    obtain ⟨out, hcall, houtlen, hget⟩ :=
      WriteDataFrame_segment drv self ID data n 0 hwf (by decide) hn hdata
    refine ⟨_, hcall, by simp [sent, hcount], ?_⟩
    intro i hi
    rw [← hcount] at hi
    have hcnt : frameCount n ≤ CAN_BUFFER_SIZE := (frameCount_le_iff n hlt).mpr hn
    have hilen : i < self.m_cmsg.length := by rw [hwf.1]; omega
    have hold : self.m_cmsg[i]? = some self.m_cmsg[i] := by simp [hilen]
    have hslot : (sent drv self out (frameCount n : Nat)).self.m_cmsg[i]? =
        some (frameAt ID 0 (frameCount n) (n % 8) data i self.m_cmsg[i]) := by
      show out[i]? = _
      rw [hget i, if_pos hi, hold]
      rfl
    rw [CheckRTR_of_getElem _ i _ hslot]
    have hc8 := (chunkAt_bounds n i hlt hi).2
    have hlen : (frameAt ID 0 (frameCount n) (n % 8) data i self.m_cmsg[i]).len =
        chunkAt (frameCount n) (n % 8) i := orLenRtr_chunk _ hc8
    rw [hlen]
    generalize chunkAt (frameCount n) (n % 8) i = c at hc8
    interval_cases c <;> decide
  refine ⟨key ID, ?_⟩
  rw [WriteDataFrameNet_eq]
  exact key _

/-- Witness of C7: the three frames of a 20-byte payload. -/
theorem C7_data_frames_not_rtr_witness :
    sampleIF.wf ∧ 20 ≤ 200 ∧ (List.range 20).length = 20 ∧
    ((∃ o, sampleIF.WriteDataFrame sampleDrv 0x100 (List.range 20) 20 0 = some o ∧
      o.tx.map TxCall.len = [((20 / 8 + (if 20 % 8 > 0 then 1 else 0) : Nat) : Int)] ∧
      ∀ i : Nat, i < 20 / 8 + (if 20 % 8 > 0 then 1 else 0) →
        o.self.CheckRTR (i : Int) = some false) ∧
    (∃ o, sampleIF.WriteDataFrameNet sampleDrv (List.range 20) 20 = some o ∧
      o.tx.map TxCall.len = [((20 / 8 + (if 20 % 8 > 0 then 1 else 0) : Nat) : Int)] ∧
      ∀ i : Nat, i < 20 / 8 + (if 20 % 8 > 0 then 1 else 0) →
        o.self.CheckRTR (i : Int) = some false)) :=
  ⟨by decide, by decide, by decide,
    C7_data_frames_not_rtr sampleDrv sampleIF 0x100 (List.range 20) 20
      (by decide) (by decide) (by decide)⟩

/-- C9: for every call that does not abort (rtr = 1, or a size of at most
200), every frame at an index below the frame count handed to canWrite has
its id equal to the ID argument; for the overload without an ID argument it is
the 32-bit word of the object's m_net, which is m_net itself when m_net is not
negative. -/
theorem C9_arbitration_id (drv : Ntcan) (self : CanIF) (ID : Nat) (data : List Nat)
    (size rtr : Nat) (hwf : self.wf) (hID : ID < 4294967296)
    (hsend : rtr = 1 ∨ (size ≤ 200 ∧ data.length = size)) :
    (∃ o c, self.WriteDataFrame drv ID data size rtr = some o ∧ o.tx = [c] ∧
      c.cmsg = o.self.m_cmsg ∧
      ∀ i : Nat, (i : Int) < c.len → ∃ f, c.cmsg[i]? = some f ∧ f.id = ID) ∧
    (size ≤ 200 ∧ data.length = size →
      ∃ o c, self.WriteDataFrameNet drv data size = some o ∧ o.tx = [c] ∧
        c.cmsg = o.self.m_cmsg ∧
        ∀ i : Nat, (i : Int) < c.len → ∃ f, c.cmsg[i]? = some f ∧
          f.id = toUInt32 self.m_net ∧
          (0 ≤ self.m_net → self.m_net < 2147483648 → (f.id : Int) = self.m_net)) := by
  have seg : ∀ (ID rtr : Nat), rtr ≠ 1 → size ≤ 200 ∧ data.length = size →
      ∃ o c, self.WriteDataFrame drv ID data size rtr = some o ∧ o.tx = [c] ∧
        c.cmsg = o.self.m_cmsg ∧
        ∀ i : Nat, (i : Int) < c.len → ∃ f, c.cmsg[i]? = some f ∧ f.id = ID % UINT_MOD := by
    intro ID rtr hrtr hsz
    have hlt : size < UINT_MOD := by unfold UINT_MOD; omega
    obtain ⟨out, hcall, houtlen, hget⟩ :=
      WriteDataFrame_segment drv self ID data size rtr hwf hrtr hsz.1 hsz.2
    refine ⟨_, _, hcall, rfl, rfl, ?_⟩
    intro i hi
    have hi2 : i < frameCount size := by
      have : (i : Int) < (frameCount size : Nat) := hi
      omega
    have hcnt : frameCount size ≤ CAN_BUFFER_SIZE := (frameCount_le_iff size hlt).mpr hsz.1
    have hilen : i < self.m_cmsg.length := by rw [hwf.1]; omega
    have hold : self.m_cmsg[i]? = some self.m_cmsg[i] := by simp [hilen]
    refine ⟨frameAt ID rtr (frameCount size) (size % 8) data i self.m_cmsg[i], ?_, rfl⟩
    show out[i]? = _
    rw [hget i, if_pos hi2, hold]
    rfl
  constructor
  · by_cases hrtr : rtr = 1
    · subst hrtr
      obtain ⟨old, hold, hcall⟩ := WriteDataFrame_rtr drv self ID data size hwf
      have hlen : 0 < self.m_cmsg.length := by rw [hwf.1]; decide
      refine ⟨_, _, hcall, rfl, rfl, ?_⟩
      intro i hi
      have hi0 : i = 0 := by
        have : (i : Int) < 1 := hi
        omega
      subst hi0
      refine ⟨{ old with id := ID % UINT_MOD, len := 16 }, List.getElem?_set_self hlen, ?_⟩
      exact Nat.mod_eq_of_lt hID
    · have hsz : size ≤ 200 ∧ data.length = size := by
        rcases hsend with h | h
        · exact absurd h hrtr
        · exact h
      obtain ⟨o, c, hcall, htx, hbuf, hid⟩ := seg ID rtr hrtr hsz
      refine ⟨o, c, hcall, htx, hbuf, ?_⟩
      intro i hi
      obtain ⟨f, hf, hfid⟩ := hid i hi
      exact ⟨f, hf, by rw [hfid]; exact Nat.mod_eq_of_lt hID⟩
  · intro hsz
    rw [WriteDataFrameNet_eq]
    obtain ⟨o, c, hcall, htx, hbuf, hid⟩ := seg (toUInt32 self.m_net) 0 (by decide) hsz
    refine ⟨o, c, hcall, htx, hbuf, ?_⟩
    intro i hi
    obtain ⟨f, hf, hfid⟩ := hid i hi
    rw [toUInt32_mod] at hfid
    refine ⟨f, hf, hfid, ?_⟩
    intro hnn hmax
    rw [hfid]
    unfold toUInt32
    rw [Int.toNat_of_nonneg (Int.emod_nonneg _ (by decide))]
    exact Int.emod_eq_of_lt hnn (by omega)

/-- Witness of C9: 20 bytes sent with ID 0x100, and with the object's net 0. -/
theorem C9_arbitration_id_witness :
    sampleIF.wf ∧ 0x100 < 4294967296 ∧ ((0 : Nat) = 1 ∨ (20 ≤ 200 ∧ (List.range 20).length = 20)) ∧
    ((∃ o c, sampleIF.WriteDataFrame sampleDrv 0x100 (List.range 20) 20 0 = some o ∧ o.tx = [c] ∧
      c.cmsg = o.self.m_cmsg ∧
      ∀ i : Nat, (i : Int) < c.len → ∃ f, c.cmsg[i]? = some f ∧ f.id = 0x100) ∧
    (20 ≤ 200 ∧ (List.range 20).length = 20 →
      ∃ o c, sampleIF.WriteDataFrameNet sampleDrv (List.range 20) 20 = some o ∧ o.tx = [c] ∧
        c.cmsg = o.self.m_cmsg ∧
        ∀ i : Nat, (i : Int) < c.len → ∃ f, c.cmsg[i]? = some f ∧
          f.id = toUInt32 sampleIF.m_net ∧
          (0 ≤ sampleIF.m_net → sampleIF.m_net < 2147483648 → (f.id : Int) = sampleIF.m_net))) :=
  ⟨by decide, by decide, by decide,
    C9_arbitration_id sampleDrv sampleIF 0x100 (List.range 20) 20 0
      (by decide) (by decide) (by decide)⟩

/-- When the extracted bytes of every frame `j < m` are the (up to) 8 bytes
of `d` from offset `8 * j`, the extracted payload is the first `8 * m` bytes
of `d`. -/
theorem ExtractPayload_chunks :
    ∀ (m : Nat) (buf : List CMSG) (d : List Nat),
      (∀ j, j < m → ∃ f, buf[j]? = some f ∧
        f.data.take (f.len &&& 0x0F) = (d.drop (8 * j)).take 8) →
      ExtractPayload buf m = d.take (8 * m) := by
  intro m
  induction m with
  | zero =>
    intro buf d _
    cases buf <;> simp [ExtractPayload]
  | succ m ih =>
    intro buf d h
    obtain ⟨f0, hf0, hchunk0⟩ := h 0 (by omega)
    cases buf with
    | nil => simp at hf0
    | cons f fs =>
      have hf : f = f0 := by simpa using hf0
      subst hf
      have hrest := ih fs (d.drop 8) (by
        intro j hj
        obtain ⟨g, hg, hgc⟩ := h (j + 1) (by omega)
        refine ⟨g, by simpa using hg, ?_⟩
        rw [hgc, List.drop_drop]
        have : 8 + 8 * j = 8 * (j + 1) := by ring
        rw [this])
      simp only [ExtractPayload, hrest, hchunk0, Nat.mul_zero, List.drop_zero]
      have : 8 * (m + 1) = 8 + 8 * m := by ring
      rw [this, List.take_add]

/-- Round trip away from the multiples of 8: for a payload of length n <= 200
with n % 8 != 0 sent with rtr = 0, the payload extracted from the frames
handed to canWrite is the payload. -/
theorem round_trip_of_rem (drv : Ntcan) (self : CanIF) (ID : Nat) (data : List Nat) (n : Nat)
    (hwf : self.wf) (hn : n ≤ 200) (hrem : n % 8 ≠ 0) (hdata : data.length = n) :
    ∃ o, self.WriteDataFrame drv ID data n 0 = some o ∧
      o.tx = [{ handle := self.m_Canhandle, cmsg := o.self.m_cmsg, len := ((n / 8 + 1 : Nat) : Int) }] ∧
      ExtractPayload o.self.m_cmsg (n / 8 + 1) = data := by
  have hlt : n < UINT_MOD := by unfold UINT_MOD; omega
  have hcount : frameCount n = n / 8 + 1 := by
    rw [frameCount_eq n hlt, if_pos (by omega)]
  obtain ⟨out, hcall, houtlen, hget⟩ :=
    WriteDataFrame_segment drv self ID data n 0 hwf (by decide) hn hdata
  rw [hcount] at hcall hget
  refine ⟨_, hcall, rfl, ?_⟩
  show ExtractPayload out (n / 8 + 1) = data
  rw [ExtractPayload_chunks (n / 8 + 1) out data]
  · apply List.take_of_length_le
    omega
  · intro x hx
    have hxlen : x < self.m_cmsg.length := by rw [hwf.1]; unfold CAN_BUFFER_SIZE; omega
    have hold : self.m_cmsg[x]? = some self.m_cmsg[x] := by simp [hxlen]
    have hchunk := chunkAt_frameCount n x hlt (by omega)
    rw [hcount] at hchunk
    have hc8 : chunkAt (n / 8 + 1) (n % 8) x ≤ 8 := by
      rw [hchunk]; split <;> omega
    have hsrc : 8 * x + chunkAt (n / 8 + 1) (n % 8) x ≤ data.length := by
      rw [hchunk, hdata]; split <;> omega
    refine ⟨frameAt ID 0 (n / 8 + 1) (n % 8) data x self.m_cmsg[x], ?_, ?_⟩
    · rw [hget x, if_pos hx, hold]
      rfl
    · have hnib : orLenRtr (toUInt8 (chunkAt (n / 8 + 1) (n % 8) x)) 0 &&& 0x0F =
          chunkAt (n / 8 + 1) (n % 8) x := by
        rw [orLenRtr_chunk _ hc8]
        generalize chunkAt (n / 8 + 1) (n % 8) x = c at hc8
        interval_cases c <;> decide
      have hlen : ((data.drop (8 * x)).take (chunkAt (n / 8 + 1) (n % 8) x)).length =
          chunkAt (n / 8 + 1) (n % 8) x := by
        simp only [List.length_take, List.length_drop]
        omega
      simp only [frameAt, hnib]
      rw [List.take_append_of_le_length (by omega), List.take_of_length_le (by omega)]
      by_cases hlast : x + 1 = n / 8 + 1
      · rw [hchunk, if_pos hlast]
        rw [List.take_of_length_le (l := data.drop (8 * x)) (i := n % 8)
          (by simp only [List.length_drop]; omega)]
        rw [List.take_of_length_le (l := data.drop (8 * x)) (i := 8)
          (by simp only [List.length_drop]; omega)]
      · rw [hchunk, if_neg hlast]

/-- C1 at the failing input: a 16-byte payload is encoded as 2 frames, and
the payload extracted from them is only its first 8 bytes. -/
theorem C1_round_trip_16_bytes :
    (sampleIF.WriteDataFrame sampleDrv 0x100 payload16 16 0).map
        (fun o => o.tx.map TxCall.len) = some [2] ∧
    (sampleIF.WriteDataFrame sampleDrv 0x100 payload16 16 0).map
        (fun o => ExtractPayload o.self.m_cmsg 2) = some [1, 2, 3, 4, 5, 6, 7, 8] ∧
    (sampleIF.WriteDataFrame sampleDrv 0x100 payload16 16 0).map
        (fun o => ExtractPayload o.self.m_cmsg 2) ≠ some payload16 := by
  decide

/-- C4 at the failing input: for a 16-byte payload both overloads hand over 2
frames, of which the last has data-length nibble 0 and keeps the data bytes
the buffer held before (zeros here): bytes 9 to 16 are in no frame. -/
theorem C4_multiple_of_8_16_bytes :
    (sampleIF.WriteDataFrame sampleDrv 0x100 payload16 16 0).map
        (fun o => o.tx.map TxCall.len) = some [2] ∧
    (sampleIF.WriteDataFrame sampleDrv 0x100 payload16 16 0).map
        (fun o => (o.self.m_cmsg.take 2).map (fun f => f.len &&& 0x0F)) = some [8, 0] ∧
    (sampleIF.WriteDataFrame sampleDrv 0x100 payload16 16 0).map
        (fun o => (o.self.m_cmsg.take 2).map CMSG.data) =
      some [[1, 2, 3, 4, 5, 6, 7, 8], [0, 0, 0, 0, 0, 0, 0, 0]] ∧
    (sampleIF.WriteDataFrameNet sampleDrv payload16 16).map
        (fun o => o.tx.map TxCall.len) = some [2] ∧
    (sampleIF.WriteDataFrameNet sampleDrv payload16 16).map
        (fun o => (o.self.m_cmsg.take 2).map (fun f => f.len &&& 0x0F)) = some [8, 0] ∧
    (sampleIF.WriteDataFrameNet sampleDrv payload16 16).map
        (fun o => (o.self.m_cmsg.take 2).map CMSG.data) =
      some [[1, 2, 3, 4, 5, 6, 7, 8], [0, 0, 0, 0, 0, 0, 0, 0]] := by
  decide

/-- C8 at the failing input: on a frame whose len is 0x20 (bit 5 set, bit 4
clear) CheckRTR returns true; WriteDataFrame itself builds such a frame for
rtr = 2, on which CheckRTR(0) then returns true as well. -/
theorem C8_CheckRTR_len_0x20 :
    (0x20 : Nat) &&& 0x10 = 0 ∧
    ({ sampleIF with m_cmsg := sampleIF.m_cmsg.set 0 { zeroFrame with len := 0x20 } }
      ).CheckRTR 0 = some true ∧
    (sampleIF.WriteDataFrame sampleDrv 0x100 [1, 2, 3, 4, 5, 6, 7, 8] 8 2).map
        (fun o => (o.self.m_cmsg.take 1).map CMSG.len) = some [0x20] ∧
    (sampleIF.WriteDataFrame sampleDrv 0x100 [1, 2, 3, 4, 5, 6, 7, 8] 8 2).map
        (fun o => o.self.CheckRTR 0) = some (some true) := by
  decide

/-- C10 at the failing input: a payload of 208 bytes needs 26 frames, which is
not more than 32, and both overloads abort: they return
NTCAN_OPERATION_ABORTED, leave the object as it was and do not invoke
canWrite. -/
theorem C10_abort_at_26_frames :
    208 / 8 + (if 208 % 8 > 0 then 1 else 0) = 26 ∧
    sampleIF.WriteDataFrame sampleDrv 0x100 (List.replicate 208 0) 208 0 =
      some { ret := sampleDrv.NTCAN_OPERATION_ABORTED, self := sampleIF, tx := [] } ∧
    sampleIF.WriteDataFrameNet sampleDrv (List.replicate 208 0) 208 =
      some { ret := sampleDrv.NTCAN_OPERATION_ABORTED, self := sampleIF, tx := [] } := by
  refine ⟨by decide, ?_, ?_⟩
  · exact WriteDataFrame_abort sampleDrv sampleIF 0x100 _ 208 0 (by decide) (by decide) (by decide)
  · rw [WriteDataFrameNet_eq]
    exact WriteDataFrame_abort sampleDrv sampleIF _ _ 208 0 (by decide) (by decide) (by decide)

/-! ## The len byte for an arbitrary rtr -/

theorem or_mod_two_pow_aux (a b n : Nat) : (a ||| b) % 2 ^ n = a % 2 ^ n ||| b % 2 ^ n := by
  apply Nat.eq_of_testBit_eq
  intro i
  simp only [Nat.testBit_mod_two_pow, Nat.testBit_or]
  cases decide (i < n) <;> simp

/-- The `len` byte that the loop writes for a chunk of `c <= 8` bytes: only
the low 4 bits of `rtr` reach it. -/
theorem orLenRtr_eq (c rtr : Nat) (hc : c ≤ 8) :
    orLenRtr (toUInt8 c) rtr = c ||| (c + 16 * (rtr % 16)) := by
  unfold orLenRtr toUInt8 UINT_MOD
  have h := or_mod_two_pow_aux (c % 256) ((c % 256 + (rtr <<< 4) % 4294967296) % 4294967296) 8
  have h8 : (2 : Nat) ^ 8 = 256 := by norm_num
  rw [h8] at h
  rw [h, Nat.shiftLeft_eq]
  have h1 : c % 256 % 256 = c := by omega
  have h2 : (c % 256 + rtr * 2 ^ 4 % 4294967296) % 4294967296 % 256 = c + 16 * (rtr % 16) := by
    have h16 : (2 : Nat) ^ 4 = 16 := by norm_num
    rw [h16]
    omega
  rw [h1, h2]

theorem orLenRtr_nibble (c rtr : Nat) (hc : c ≤ 8) :
    orLenRtr (toUInt8 c) rtr &&& 0x0F = c := by
  rw [orLenRtr_eq c rtr hc]
  have hr : rtr % 16 < 16 := Nat.mod_lt _ (by decide)
  generalize rtr % 16 = r at hr
  interval_cases c <;> interval_cases r <;> decide

theorem orLenRtr_bit4 (c rtr : Nat) (hc : c ≤ 8) :
    orLenRtr (toUInt8 c) rtr &&& 0x10 = 0 ↔ rtr % 2 = 0 := by
  rw [orLenRtr_eq c rtr hc]
  have hr : rtr % 16 < 16 := Nat.mod_lt _ (by decide)
  have h2 : rtr % 2 = rtr % 16 % 2 := by omega
  rw [h2]
  generalize rtr % 16 = r at hr
  interval_cases c <;> interval_cases r <;> decide

/-! ## The frame written at an index -/

theorem frameAt_take (ID rtr NumOfFrames Remainder : Nat) (data : List Nat) (x : Nat)
    (old : CMSG) (hsrc : 8 * x + chunkAt NumOfFrames Remainder x ≤ data.length) :
    (frameAt ID rtr NumOfFrames Remainder data x old).data.take (chunkAt NumOfFrames Remainder x) =
      (data.drop (8 * x)).take (chunkAt NumOfFrames Remainder x) := by
  have hlen : ((data.drop (8 * x)).take (chunkAt NumOfFrames Remainder x)).length =
      chunkAt NumOfFrames Remainder x := by
    simp only [List.length_take, List.length_drop]
    omega
  simp only [frameAt]
  rw [List.take_append_of_le_length (by omega), List.take_of_length_le (by omega)]

theorem frameAt_drop (ID rtr NumOfFrames Remainder : Nat) (data : List Nat) (x : Nat)
    (old : CMSG) (hsrc : 8 * x + chunkAt NumOfFrames Remainder x ≤ data.length) :
    (frameAt ID rtr NumOfFrames Remainder data x old).data.drop (chunkAt NumOfFrames Remainder x) =
      old.data.drop (chunkAt NumOfFrames Remainder x) := by
  have hlen : ((data.drop (8 * x)).take (chunkAt NumOfFrames Remainder x)).length =
      chunkAt NumOfFrames Remainder x := by
    simp only [List.length_take, List.length_drop]
    omega
  simp only [frameAt]
  rw [List.drop_append_of_le_length (by omega), List.drop_of_length_le (by omega), List.nil_append]

/-- The three ways a call of `WriteDataFrame(ID, data, size, rtr)` ends, for an
object of the declared layout and a payload of `size` bytes: the RTR exit, the
abort, or the segmentation followed by the send. -/
theorem WriteDataFrame_total (drv : Ntcan) (self : CanIF) (ID : Nat) (data : List Nat)
    (size rtr : Nat) (hwf : self.wf) (hsize : size < UINT_MOD) (hdata : data.length = size) :
    (rtr = 1 ∧ ∃ old, self.m_cmsg[0]? = some old ∧
      self.WriteDataFrame drv ID data size rtr =
        some (sent drv self (self.m_cmsg.set 0 { old with id := ID % UINT_MOD, len := 16 }) 1)) ∨
    (rtr ≠ 1 ∧ 200 < size ∧ self.WriteDataFrame drv ID data size rtr = some (aborted drv self)) ∨
    (rtr ≠ 1 ∧ size ≤ 200 ∧ ∃ out, self.WriteDataFrame drv ID data size rtr =
        some (sent drv self out (frameCount size : Nat)) ∧
      out.length = CAN_BUFFER_SIZE ∧
      ∀ j, out[j]? = if j < frameCount size then
          (self.m_cmsg[j]?).map (frameAt ID rtr (frameCount size) (size % 8) data j)
        else self.m_cmsg[j]?) := by
  by_cases hrtr : rtr = 1
  · left
    subst hrtr
    exact ⟨rfl, WriteDataFrame_rtr drv self ID data size hwf⟩
  · right
    by_cases hle : size ≤ 200
    · right
      exact ⟨hrtr, hle, WriteDataFrame_segment drv self ID data size rtr hwf hrtr hle hdata⟩
    · left
      exact ⟨hrtr, by omega, WriteDataFrame_abort drv self ID data size rtr hrtr hsize (by omega)⟩

/-- The frame in slot `j` after the segmentation, for `j` below the frame
count: its data-length nibble is the chunk size, which is `size % 8` at the
last index and 8 before it, its first bytes are the chunk of the payload at
offset `8 * j` and its other bytes are those the slot held before. -/
theorem segment_frame (self : CanIF) (ID rtr : Nat) (data : List Nat) (size : Nat)
    (out : List CMSG) (hwf : self.wf) (hsize : size ≤ 200) (hdata : data.length = size)
    (hget : ∀ j, out[j]? = if j < frameCount size then
        (self.m_cmsg[j]?).map (frameAt ID rtr (frameCount size) (size % 8) data j)
      else self.m_cmsg[j]?)
    (j : Nat) (hj : j < frameCount size) :
    ∃ old f, self.m_cmsg[j]? = some old ∧ out[j]? = some f ∧
      f = frameAt ID rtr (frameCount size) (size % 8) data j old ∧
      chunkAt (frameCount size) (size % 8) j = (if j + 1 = frameCount size then size % 8 else 8) ∧
      chunkAt (frameCount size) (size % 8) j ≤ 8 ∧
      f.len &&& 0x0F = chunkAt (frameCount size) (size % 8) j ∧
      f.data.take (chunkAt (frameCount size) (size % 8) j) =
        (data.drop (8 * j)).take (chunkAt (frameCount size) (size % 8) j) ∧
      f.data.drop (chunkAt (frameCount size) (size % 8) j) =
        old.data.drop (chunkAt (frameCount size) (size % 8) j) := by
  have hlt : size < UINT_MOD := by unfold UINT_MOD; omega
  have hcnt : frameCount size ≤ CAN_BUFFER_SIZE := (frameCount_le_iff size hlt).mpr hsize
  have hjlen : j < self.m_cmsg.length := by rw [hwf.1]; omega
  have hold : self.m_cmsg[j]? = some self.m_cmsg[j] := by simp [hjlen]
  have hb := chunkAt_bounds size j hlt hj
  have hsrc : 8 * j + chunkAt (frameCount size) (size % 8) j ≤ data.length := by
    rw [hdata]; exact hb.1
  refine ⟨self.m_cmsg[j], _, hold, ?_, rfl, chunkAt_frameCount size j hlt hj, hb.2, ?_, ?_, ?_⟩
  · rw [hget j, if_pos hj, hold]
    rfl
  · exact orLenRtr_nibble _ rtr hb.2
  · exact frameAt_take ID rtr _ _ data j _ hsrc
  · exact frameAt_drop ID rtr _ _ data j _ hsrc

/-- C11: for every call of either overload, with any ID, payload, size and rtr,
the call returns, and every frame it writes (every frame below the count
handed to canWrite) has a data-length nibble of at most 8: 0 for the RTR
frame, and for a data frame the number of payload bytes copied into it
(size % 8 at the last index, 8 before it). -/
theorem C11_frame_nibble (drv : Ntcan) (self : CanIF) (ID : Nat) (data : List Nat)
    (size rtr : Nat) (hwf : self.wf) (hsize : size < 4294967296) (hdata : data.length = size) :
    (∃ o, self.WriteDataFrame drv ID data size rtr = some o ∧
      ∀ c ∈ o.tx, ∀ j : Nat, (j : Int) < c.len → ∃ f, c.cmsg[j]? = some f ∧
        f.len &&& 0x0F ≤ 8 ∧
        (rtr = 1 → f.len &&& 0x0F = 0) ∧
        (rtr ≠ 1 → f.len &&& 0x0F = (if (j : Int) + 1 = c.len then size % 8 else 8) ∧
          f.data.take (f.len &&& 0x0F) = (data.drop (8 * j)).take (f.len &&& 0x0F))) ∧
    (∃ o, self.WriteDataFrameNet drv data size = some o ∧
      ∀ c ∈ o.tx, ∀ j : Nat, (j : Int) < c.len → ∃ f, c.cmsg[j]? = some f ∧
        f.len &&& 0x0F ≤ 8 ∧
        f.len &&& 0x0F = (if (j : Int) + 1 = c.len then size % 8 else 8) ∧
        f.data.take (f.len &&& 0x0F) = (data.drop (8 * j)).take (f.len &&& 0x0F)) := by
  have key : ∀ ID rtr : Nat, ∃ o, self.WriteDataFrame drv ID data size rtr = some o ∧
      ∀ c ∈ o.tx, ∀ j : Nat, (j : Int) < c.len → ∃ f, c.cmsg[j]? = some f ∧
        f.len &&& 0x0F ≤ 8 ∧
        (rtr = 1 → f.len &&& 0x0F = 0) ∧
        (rtr ≠ 1 → f.len &&& 0x0F = (if (j : Int) + 1 = c.len then size % 8 else 8) ∧
          f.data.take (f.len &&& 0x0F) = (data.drop (8 * j)).take (f.len &&& 0x0F)) := by
    intro ID rtr
    rcases WriteDataFrame_total drv self ID data size rtr hwf hsize hdata with
      ⟨hrtr, old, hold, hcall⟩ | ⟨hrtr, hgt, hcall⟩ | ⟨hrtr, hle, out, hcall, houtlen, hget⟩
    · refine ⟨_, hcall, ?_⟩
      intro c hc j hj
      have hceq : c = TxCall.mk self.m_Canhandle
          (self.m_cmsg.set 0 { old with id := ID % UINT_MOD, len := 16 }) 1 :=
        List.mem_singleton.mp hc
      subst hceq
      have hj0 : j = 0 := by
        have : (j : Int) < 1 := hj
        omega
      subst hj0
      have hlen : 0 < self.m_cmsg.length := by rw [hwf.1]; decide
      refine ⟨{ old with id := ID % UINT_MOD, len := 16 }, List.getElem?_set_self hlen, ?_, ?_, ?_⟩
      · show (16 : Nat) &&& 0x0F ≤ 8
        decide
      · intro _
        show (16 : Nat) &&& 0x0F = 0
        decide
      · intro hne
        exact absurd hrtr hne
    · refine ⟨_, hcall, ?_⟩
      intro c hc
      simp [aborted] at hc
    · refine ⟨_, hcall, ?_⟩
      intro c hc j hj
      have hceq : c = TxCall.mk self.m_Canhandle out ((frameCount size : Nat) : Int) :=
        List.mem_singleton.mp hc
      subst hceq
      have hj2 : j < frameCount size := by
        have : (j : Int) < ((frameCount size : Nat) : Int) := hj
        omega
      obtain ⟨old, f, _, hf, _, hchunk, hc8, hnib, htake, _⟩ :=
        segment_frame self ID rtr data size out hwf hle hdata hget j hj2
      have hif : (if (j : Int) + 1 = ((frameCount size : Nat) : Int) then size % 8 else 8) =
          (if j + 1 = frameCount size then size % 8 else 8) := by
        by_cases h : j + 1 = frameCount size
        · rw [if_pos h, if_pos (by omega)]
        · rw [if_neg h, if_neg (by omega)]
      refine ⟨f, hf, by rw [hnib]; exact hc8, fun h => absurd h hrtr, fun _ => ⟨?_, ?_⟩⟩
      · show f.len &&& 0x0F = if (j : Int) + 1 = ((frameCount size : Nat) : Int) then _ else _
        rw [hif, hnib, hchunk]
      · rw [hnib]
        exact htake
  refine ⟨key ID rtr, ?_⟩
  rw [WriteDataFrameNet_eq]
  obtain ⟨o, hcall, hfr⟩ := key (toUInt32 self.m_net) 0
  refine ⟨o, hcall, ?_⟩
  intro c hc j hj
  obtain ⟨f, hf, h8, _, hdat⟩ := hfr c hc j hj
  exact ⟨f, hf, h8, (hdat (by decide)).1, (hdat (by decide)).2⟩

/-- Witness of C11: 20 bytes sent with rtr = 3. -/
theorem C11_frame_nibble_witness :
    sampleIF.wf ∧ 20 < 4294967296 ∧ (List.range 20).length = 20 ∧
    ((∃ o, sampleIF.WriteDataFrame sampleDrv 0x100 (List.range 20) 20 3 = some o ∧
      ∀ c ∈ o.tx, ∀ j : Nat, (j : Int) < c.len → ∃ f, c.cmsg[j]? = some f ∧
        f.len &&& 0x0F ≤ 8 ∧
        ((3 : Nat) = 1 → f.len &&& 0x0F = 0) ∧
        ((3 : Nat) ≠ 1 → f.len &&& 0x0F = (if (j : Int) + 1 = c.len then 20 % 8 else 8) ∧
          f.data.take (f.len &&& 0x0F) = ((List.range 20).drop (8 * j)).take (f.len &&& 0x0F))) ∧
    (∃ o, sampleIF.WriteDataFrameNet sampleDrv (List.range 20) 20 = some o ∧
      ∀ c ∈ o.tx, ∀ j : Nat, (j : Int) < c.len → ∃ f, c.cmsg[j]? = some f ∧
        f.len &&& 0x0F ≤ 8 ∧
        f.len &&& 0x0F = (if (j : Int) + 1 = c.len then 20 % 8 else 8) ∧
        f.data.take (f.len &&& 0x0F) = ((List.range 20).drop (8 * j)).take (f.len &&& 0x0F))) :=
  ⟨by decide, by decide, by decide,
    C11_frame_nibble sampleDrv sampleIF 0x100 (List.range 20) 20 3
      (by decide) (by decide) (by decide)⟩

/-- Whatever the object and the arguments are, a call of
`WriteDataFrame(ID, data, size, rtr)` that returns has invoked `canWrite` at
most once, with the buffer it built and a frame count from 0 to
`CAN_BUFFER_SIZE`, and `m_len` then holds what `canWrite` left in it. -/
theorem WriteDataFrame_tx_len (drv : Ntcan) (self : CanIF) (ID : Nat) (data : List Nat)
    (size rtr : Nat) (o : Outcome) (h : self.WriteDataFrame drv ID data size rtr = some o) :
    ∀ c ∈ o.tx, 0 ≤ c.len ∧ c.len ≤ (CAN_BUFFER_SIZE : Int) ∧ c.cmsg = o.self.m_cmsg ∧
      o.self.m_len = (drv.canWrite c.handle c.cmsg c.len).2 := by
  unfold CanIF.WriteDataFrame at h
  by_cases hrtr : rtr = 1
  · simp only [if_pos hrtr] at h
    cases hslot : self.m_cmsg[0]? with
    | none => simp [hslot] at h
    | some f =>
      simp only [hslot, Option.some.injEq] at h
      subst h
      intro c hc
      have hceq := List.mem_singleton.mp hc
      subst hceq
      refine ⟨?_, ?_, rfl, rfl⟩
      · show (0 : Int) ≤ 1
        decide
      · show (1 : Int) ≤ (CAN_BUFFER_SIZE : Int)
        decide
  · simp only [if_neg hrtr] at h
    by_cases hcnt : (if size % 8 > 0 then (size / 8 + 1) % UINT_MOD else size / 8) > CAN_BUFFER_SIZE
    · rw [if_pos hcnt] at h
      have ho := Option.some.inj h
      subst ho
      intro c hc
      simp at hc
    · rw [if_neg hcnt] at h
      cases hloop : WriteDataFrame.loop ID rtr
          (if size % 8 > 0 then (size / 8 + 1) % UINT_MOD else size / 8) (size % 8) data
          (if size % 8 > 0 then (size / 8 + 1) % UINT_MOD else size / 8) 0 0 self.m_cmsg with
      | none => simp [hloop] at h
      | some out =>
        simp only [hloop, Option.some.injEq] at h
        subst h
        intro c hc
        have hceq := List.mem_singleton.mp hc
        subst hceq
        refine ⟨?_, ?_, rfl, rfl⟩
        · exact Int.ofNat_nonneg _
        · have hle : (if size % 8 > 0 then (size / 8 + 1) % UINT_MOD else size / 8) ≤
              CAN_BUFFER_SIZE := by omega
          exact Int.ofNat_le.mpr hle

/-- C12: from any object state and for any arguments, when a call of either
overload assigns the frame count m_len and hands the buffer to canWrite, that
count is between 0 and CAN_BUFFER_SIZE (25); m_len afterwards is what
canWrite left in it, so it stays at most 25 when canWrite does not raise it. -/
theorem C12_buffer_length (drv : Ntcan) (self : CanIF) (ID : Nat) (data : List Nat)
    (size rtr : Nat) (o : Outcome)
    (h : self.WriteDataFrame drv ID data size rtr = some o ∨
      self.WriteDataFrameNet drv data size = some o) :
    ∀ c ∈ o.tx, 0 ≤ c.len ∧ c.len ≤ 25 ∧ c.cmsg = o.self.m_cmsg ∧
      ((drv.canWrite c.handle c.cmsg c.len).2 ≤ c.len → o.self.m_len ≤ 25) := by
  have key : ∀ ID rtr : Nat, self.WriteDataFrame drv ID data size rtr = some o →
      ∀ c ∈ o.tx, 0 ≤ c.len ∧ c.len ≤ 25 ∧ c.cmsg = o.self.m_cmsg ∧
        ((drv.canWrite c.handle c.cmsg c.len).2 ≤ c.len → o.self.m_len ≤ 25) := by
    intro ID rtr hcall c hc
    obtain ⟨h0, h25, hbuf, hlen⟩ := WriteDataFrame_tx_len drv self ID data size rtr o hcall c hc
    have h25b : c.len ≤ 25 := h25
    refine ⟨h0, h25b, hbuf, ?_⟩
    intro hdrv
    rw [hlen]
    omega
  rcases h with h | h
  · exact key ID rtr h
  · rw [WriteDataFrameNet_eq] at h
    exact key _ 0 h

/-- Witness of C12: the RTR request for ID 0x100 hands over one frame. -/
theorem C12_buffer_length_witness :
    (sampleIF.WriteDataFrame sampleDrv 0x100 [] 0 1 =
        some (sent sampleDrv sampleIF
          (sampleIF.m_cmsg.set 0 { zeroFrame with id := 0x100, len := 16 }) 1) ∨
      sampleIF.WriteDataFrameNet sampleDrv [] 0 =
        some (sent sampleDrv sampleIF
          (sampleIF.m_cmsg.set 0 { zeroFrame with id := 0x100, len := 16 }) 1)) ∧
    ∀ c ∈ (sent sampleDrv sampleIF
        (sampleIF.m_cmsg.set 0 { zeroFrame with id := 0x100, len := 16 }) 1).tx,
      0 ≤ c.len ∧ c.len ≤ 25 ∧
      c.cmsg = (sent sampleDrv sampleIF
        (sampleIF.m_cmsg.set 0 { zeroFrame with id := 0x100, len := 16 }) 1).self.m_cmsg ∧
      ((sampleDrv.canWrite c.handle c.cmsg c.len).2 ≤ c.len →
        (sent sampleDrv sampleIF
          (sampleIF.m_cmsg.set 0 { zeroFrame with id := 0x100, len := 16 }) 1).self.m_len ≤ 25) :=
  ⟨Or.inl (by decide),
    C12_buffer_length sampleDrv sampleIF 0x100 [] 0 1 _ (Or.inl (by decide))⟩

/-- C13 fails as stated: the call WriteDataFrame(0x100, 4 bytes, 4, rtr = 3)
does not take the RTR exit and does not abort (canWrite gets 1 frame), and the
frame it builds has len = 0x34, whose bit 4 is set. -/
theorem C13_rtr_3_sets_bit_4 :
    (3 : Nat) ≠ 1 ∧
    (sampleIF.WriteDataFrame sampleDrv 0x100 [1, 2, 3, 4] 4 3).map
        (fun o => o.tx.map TxCall.len) = some [1] ∧
    (sampleIF.WriteDataFrame sampleDrv 0x100 [1, 2, 3, 4] 4 3).map
        (fun o => (o.self.m_cmsg.take 1).map CMSG.len) = some [0x34] ∧
    (sampleIF.WriteDataFrame sampleDrv 0x100 [1, 2, 3, 4] 4 3).map
        (fun o => (o.self.m_cmsg.take 1).map (fun f => f.len &&& 0x10)) = some [0x10] := by
  decide

/-- C13 as amended: for every call that does not take the RTR exit (rtr other
than 1) and does not abort, bit 4 of len of every produced frame is clear
exactly when rtr is even, so it is clear for rtr = 0; the low nibble of len is
8 in every frame before the last, and size % 8 in the last frame of a payload
whose size is not a multiple of 8. Nothing is stated about the low nibble of
the last frame when size is a multiple of 8. -/
theorem C13_segment_rtr_bit (drv : Ntcan) (self : CanIF) (ID : Nat) (data : List Nat)
    (size rtr : Nat) (hwf : self.wf) (hrtr : rtr ≠ 1) (hsize : size ≤ 200)
    (hdata : data.length = size) :
    ∃ o c, self.WriteDataFrame drv ID data size rtr = some o ∧ o.tx = [c] ∧
      c.cmsg = o.self.m_cmsg ∧
      ∀ j : Nat, (j : Int) < c.len → ∃ f, c.cmsg[j]? = some f ∧
        (f.len &&& 0x10 = 0 ↔ rtr % 2 = 0) ∧
        ((j : Int) + 1 < c.len → f.len &&& 0x0F = 8) ∧
        ((j : Int) + 1 = c.len → size % 8 ≠ 0 → f.len &&& 0x0F = size % 8) := by
  obtain ⟨out, hcall, houtlen, hget⟩ :=
    WriteDataFrame_segment drv self ID data size rtr hwf hrtr hsize hdata
  refine ⟨_, _, hcall, rfl, rfl, ?_⟩
  intro j hj
  have hj2 : j < frameCount size := by
    have : (j : Int) < ((frameCount size : Nat) : Int) := hj
    omega
  obtain ⟨old, f, _, hf, hfeq, hchunk, hc8, hnib, _, _⟩ :=
    segment_frame self ID rtr data size out hwf hsize hdata hget j hj2
  refine ⟨f, hf, ?_, ?_, ?_⟩
  · have hlen : f.len = orLenRtr (toUInt8 (chunkAt (frameCount size) (size % 8) j)) rtr := by
      rw [hfeq]
      rfl
    rw [hlen]
    exact orLenRtr_bit4 _ rtr hc8
  · intro hbefore
    have hne : ¬ j + 1 = frameCount size := by
      have : (j : Int) + 1 < ((frameCount size : Nat) : Int) := hbefore
      omega
    rw [hnib, hchunk, if_neg hne]
  · intro hlast _
    have heq : j + 1 = frameCount size := by
      have : (j : Int) + 1 = ((frameCount size : Nat) : Int) := hlast
      omega
    rw [hnib, hchunk, if_pos heq]

/-- Witness of C13 as amended: 20 bytes sent with rtr = 2. -/
theorem C13_segment_rtr_bit_witness :
    sampleIF.wf ∧ (2 : Nat) ≠ 1 ∧ 20 ≤ 200 ∧ (List.range 20).length = 20 ∧
    ∃ o c, sampleIF.WriteDataFrame sampleDrv 0x100 (List.range 20) 20 2 = some o ∧ o.tx = [c] ∧
      c.cmsg = o.self.m_cmsg ∧
      ∀ j : Nat, (j : Int) < c.len → ∃ f, c.cmsg[j]? = some f ∧
        (f.len &&& 0x10 = 0 ↔ 2 % 2 = 0) ∧
        ((j : Int) + 1 < c.len → f.len &&& 0x0F = 8) ∧
        ((j : Int) + 1 = c.len → 20 % 8 ≠ 0 → f.len &&& 0x0F = 20 % 8) :=
  ⟨by decide, by decide, by decide, by decide,
    C13_segment_rtr_bit sampleDrv sampleIF 0x100 (List.range 20) 20 2
      (by decide) (by decide) (by decide) (by decide)⟩

/-- C14: from every object state and for every payload and size,
WriteDataFrame(data, size) has the same outcome (return path and value, m_len,
frame buffer and the whole object, invocation of canWrite) as
WriteDataFrame(m_net, data, size, 0), where the ID argument is m_net converted
to unsigned int. -/
theorem C14_overloads_agree (drv : Ntcan) (self : CanIF) (data : List Nat) (size : Nat) :
    self.WriteDataFrameNet drv data size =
      self.WriteDataFrame drv (toUInt32 self.m_net) data size 0 ∧
    (self.WriteDataFrameNet drv data size).map Outcome.ret =
      (self.WriteDataFrame drv (toUInt32 self.m_net) data size 0).map Outcome.ret ∧
    (self.WriteDataFrameNet drv data size).map (fun o => o.self.m_len) =
      (self.WriteDataFrame drv (toUInt32 self.m_net) data size 0).map (fun o => o.self.m_len) ∧
    (self.WriteDataFrameNet drv data size).map (fun o => o.self.m_cmsg) =
      (self.WriteDataFrame drv (toUInt32 self.m_net) data size 0).map (fun o => o.self.m_cmsg) ∧
    (self.WriteDataFrameNet drv data size).map Outcome.tx =
      (self.WriteDataFrame drv (toUInt32 self.m_net) data size 0).map Outcome.tx := by
  have h := WriteDataFrameNet_eq drv self data size
  exact ⟨h, by rw [h], by rw [h], by rw [h], by rw [h]⟩

/-- C15: for every call that does not abort (rtr = 1, or a size of at most
200), canWrite is invoked exactly once, with the object's handle, the built
buffer and the built frame count, and the value returned, which is also stored
in m_retvalue, is the result of that invocation, whatever the driver is. -/
theorem C15_transport_result (drv : Ntcan) (self : CanIF) (ID : Nat) (data : List Nat)
    (size rtr : Nat) (hwf : self.wf)
    (hsend : rtr = 1 ∨ (size ≤ 200 ∧ data.length = size)) :
    (∃ o c, self.WriteDataFrame drv ID data size rtr = some o ∧ o.tx = [c] ∧
      c.handle = self.m_Canhandle ∧ c.cmsg = o.self.m_cmsg ∧
      (c.len : Int) = (if rtr = 1 then 1 else
        ((size / 8 + (if size % 8 > 0 then 1 else 0) : Nat) : Int)) ∧
      o.ret = (drv.canWrite c.handle c.cmsg c.len).1 ∧
      o.self.m_retvalue = (drv.canWrite c.handle c.cmsg c.len).1 ∧
      o.self.m_len = (drv.canWrite c.handle c.cmsg c.len).2) ∧
    (size ≤ 200 ∧ data.length = size →
      ∃ o c, self.WriteDataFrameNet drv data size = some o ∧ o.tx = [c] ∧
        c.handle = self.m_Canhandle ∧ c.cmsg = o.self.m_cmsg ∧
        (c.len : Int) = ((size / 8 + (if size % 8 > 0 then 1 else 0) : Nat) : Int) ∧
        o.ret = (drv.canWrite c.handle c.cmsg c.len).1 ∧
        o.self.m_retvalue = (drv.canWrite c.handle c.cmsg c.len).1 ∧
        o.self.m_len = (drv.canWrite c.handle c.cmsg c.len).2) := by
  have seg : ∀ (ID rtr : Nat), rtr ≠ 1 → size ≤ 200 ∧ data.length = size →
      ∃ o c, self.WriteDataFrame drv ID data size rtr = some o ∧ o.tx = [c] ∧
        c.handle = self.m_Canhandle ∧ c.cmsg = o.self.m_cmsg ∧
        (c.len : Int) = ((size / 8 + (if size % 8 > 0 then 1 else 0) : Nat) : Int) ∧
        o.ret = (drv.canWrite c.handle c.cmsg c.len).1 ∧
        o.self.m_retvalue = (drv.canWrite c.handle c.cmsg c.len).1 ∧
        o.self.m_len = (drv.canWrite c.handle c.cmsg c.len).2 := by
    intro ID rtr hrtr hsz
    have hlt : size < UINT_MOD := by unfold UINT_MOD; omega
    obtain ⟨out, hcall, _, _⟩ :=
      WriteDataFrame_segment drv self ID data size rtr hwf hrtr hsz.1 hsz.2
    refine ⟨_, _, hcall, rfl, rfl, rfl, ?_, rfl, rfl, rfl⟩
    show ((frameCount size : Nat) : Int) = _
    rw [frameCount_eq size hlt]
  constructor
  · by_cases hrtr : rtr = 1
    · subst hrtr
      obtain ⟨old, hold, hcall⟩ := WriteDataFrame_rtr drv self ID data size hwf
      exact ⟨_, _, hcall, rfl, rfl, rfl, rfl, rfl, rfl, rfl⟩
    · have hsz : size ≤ 200 ∧ data.length = size := by
        rcases hsend with h | h
        · exact absurd h hrtr
        · exact h
      obtain ⟨o, c, hcall, htx, hh, hbuf, hlen, hret, hrv, hml⟩ := seg ID rtr hrtr hsz
      refine ⟨o, c, hcall, htx, hh, hbuf, ?_, hret, hrv, hml⟩
      rw [if_neg hrtr]
      exact hlen
  · intro hsz
    rw [WriteDataFrameNet_eq]
    exact seg _ 0 (by decide) hsz

/-- Witness of C15: 20 bytes sent with ID 0x100 and rtr = 0 through a driver
whose canWrite fails. -/
theorem C15_transport_result_witness :
    sampleIF.wf ∧ ((0 : Nat) = 1 ∨ (20 ≤ 200 ∧ (List.range 20).length = 20)) ∧
    ((∃ o c, sampleIF.WriteDataFrame failingDrv 0x100 (List.range 20) 20 0 = some o ∧ o.tx = [c] ∧
      c.handle = sampleIF.m_Canhandle ∧ c.cmsg = o.self.m_cmsg ∧
      (c.len : Int) = (if (0 : Nat) = 1 then 1 else
        ((20 / 8 + (if 20 % 8 > 0 then 1 else 0) : Nat) : Int)) ∧
      o.ret = (failingDrv.canWrite c.handle c.cmsg c.len).1 ∧
      o.self.m_retvalue = (failingDrv.canWrite c.handle c.cmsg c.len).1 ∧
      o.self.m_len = (failingDrv.canWrite c.handle c.cmsg c.len).2) ∧
    (20 ≤ 200 ∧ (List.range 20).length = 20 →
      ∃ o c, sampleIF.WriteDataFrameNet failingDrv (List.range 20) 20 = some o ∧ o.tx = [c] ∧
        c.handle = sampleIF.m_Canhandle ∧ c.cmsg = o.self.m_cmsg ∧
        (c.len : Int) = ((20 / 8 + (if 20 % 8 > 0 then 1 else 0) : Nat) : Int) ∧
        o.ret = (failingDrv.canWrite c.handle c.cmsg c.len).1 ∧
        o.self.m_retvalue = (failingDrv.canWrite c.handle c.cmsg c.len).1 ∧
        o.self.m_len = (failingDrv.canWrite c.handle c.cmsg c.len).2)) :=
  ⟨by decide, by decide,
    C15_transport_result failingDrv sampleIF 0x100 (List.range 20) 20 0 (by decide) (by decide)⟩

/-- C16: for every 8-bit len value of the indexed frame, CheckRTR returns true
exactly when len >> 4 is non-zero, which is exactly when len >= 16. -/
theorem C16_CheckRTR_truthiness (self : CanIF) (i : Nat) (f : CMSG)
    (hf : self.m_cmsg[i]? = some f) (hlen : f.len < 256) :
    self.CheckRTR (i : Int) = some (decide (f.len >>> 4 ≠ 0)) ∧
    (f.len >>> 4 ≠ 0 ↔ 16 ≤ f.len) ∧
    (self.CheckRTR (i : Int) = some true ↔ 16 ≤ f.len) := by
  have h8 : toUInt8 f.len = f.len := Nat.mod_eq_of_lt hlen
  have hcheck := CheckRTR_of_getElem self i f hf
  rw [h8] at hcheck
  have hshift : f.len >>> 4 = f.len / 16 := by
    rw [Nat.shiftRight_eq_div_pow]
  have hiff : f.len >>> 4 ≠ 0 ↔ 16 ≤ f.len := by
    rw [hshift]
    omega
  refine ⟨hcheck, hiff, ?_⟩
  rw [hcheck, ← hiff]
  simp

/-- Witness of C16: a frame whose len is 0x20. -/
theorem C16_CheckRTR_truthiness_witness :
    ({ sampleIF with m_cmsg := sampleIF.m_cmsg.set 0 { zeroFrame with len := 0x20 } } : CanIF
      ).m_cmsg[0]? = some { zeroFrame with len := 0x20 } ∧
    ({ zeroFrame with len := 0x20 } : CMSG).len < 256 ∧
    (({ sampleIF with m_cmsg := sampleIF.m_cmsg.set 0 { zeroFrame with len := 0x20 } } : CanIF
      ).CheckRTR ((0 : Nat) : Int) =
        some (decide (({ zeroFrame with len := 0x20 } : CMSG).len >>> 4 ≠ 0)) ∧
    (({ zeroFrame with len := 0x20 } : CMSG).len >>> 4 ≠ 0 ↔
      16 ≤ ({ zeroFrame with len := 0x20 } : CMSG).len) ∧
    (({ sampleIF with m_cmsg := sampleIF.m_cmsg.set 0 { zeroFrame with len := 0x20 } } : CanIF
      ).CheckRTR ((0 : Nat) : Int) = some true ↔
      16 ≤ ({ zeroFrame with len := 0x20 } : CMSG).len)) :=
  ⟨by decide, by decide,
    C16_CheckRTR_truthiness
      { sampleIF with m_cmsg := sampleIF.m_cmsg.set 0 { zeroFrame with len := 0x20 } } 0
      { zeroFrame with len := 0x20 } (by decide) (by decide)⟩

/-- C17: for every call that does not abort (rtr = 1, or a size of at most
200), by either overload, the buffer keeps its length, every slot at an index
at or above the count handed to canWrite is as it was before the call, and in
every frame below the count the data bytes from the chunk size on (in the RTR
frame all the data bytes) are those the slot held before; outside the frame
buffer only m_len and m_retvalue of the object change. -/
theorem C17_frame_effect (drv : Ntcan) (self : CanIF) (ID : Nat) (data : List Nat)
    (size rtr : Nat) (hwf : self.wf)
    (hsend : rtr = 1 ∨ (size ≤ 200 ∧ data.length = size)) :
    (∃ o c, self.WriteDataFrame drv ID data size rtr = some o ∧ o.tx = [c] ∧
      c.cmsg = o.self.m_cmsg ∧ o.self.m_cmsg.length = self.m_cmsg.length ∧
      o.self = { self with m_cmsg := o.self.m_cmsg, m_len := o.self.m_len,
                           m_retvalue := o.self.m_retvalue } ∧
      (∀ j : Nat, c.len ≤ (j : Int) → o.self.m_cmsg[j]? = self.m_cmsg[j]?) ∧
      (∀ j : Nat, (j : Int) < c.len → ∃ old f, self.m_cmsg[j]? = some old ∧
        o.self.m_cmsg[j]? = some f ∧
        f.data.drop (if rtr = 1 then 0 else if (j : Int) + 1 = c.len then size % 8 else 8) =
          old.data.drop (if rtr = 1 then 0 else if (j : Int) + 1 = c.len then size % 8 else 8))) ∧
    (size ≤ 200 ∧ data.length = size →
      ∃ o c, self.WriteDataFrameNet drv data size = some o ∧ o.tx = [c] ∧
        c.cmsg = o.self.m_cmsg ∧ o.self.m_cmsg.length = self.m_cmsg.length ∧
        o.self = { self with m_cmsg := o.self.m_cmsg, m_len := o.self.m_len,
                             m_retvalue := o.self.m_retvalue } ∧
        (∀ j : Nat, c.len ≤ (j : Int) → o.self.m_cmsg[j]? = self.m_cmsg[j]?) ∧
        (∀ j : Nat, (j : Int) < c.len → ∃ old f, self.m_cmsg[j]? = some old ∧
          o.self.m_cmsg[j]? = some f ∧
          f.data.drop (if (j : Int) + 1 = c.len then size % 8 else 8) =
            old.data.drop (if (j : Int) + 1 = c.len then size % 8 else 8))) := by
  have seg : ∀ (ID rtr : Nat), rtr ≠ 1 → size ≤ 200 ∧ data.length = size →
      ∃ o c, self.WriteDataFrame drv ID data size rtr = some o ∧ o.tx = [c] ∧
        c.cmsg = o.self.m_cmsg ∧ o.self.m_cmsg.length = self.m_cmsg.length ∧
        o.self = { self with m_cmsg := o.self.m_cmsg, m_len := o.self.m_len,
                             m_retvalue := o.self.m_retvalue } ∧
        (∀ j : Nat, c.len ≤ (j : Int) → o.self.m_cmsg[j]? = self.m_cmsg[j]?) ∧
        (∀ j : Nat, (j : Int) < c.len → ∃ old f, self.m_cmsg[j]? = some old ∧
          o.self.m_cmsg[j]? = some f ∧
          f.data.drop (if (j : Int) + 1 = c.len then size % 8 else 8) =
            old.data.drop (if (j : Int) + 1 = c.len then size % 8 else 8)) := by
    intro ID rtr hrtr hsz
    obtain ⟨out, hcall, houtlen, hget⟩ :=
      WriteDataFrame_segment drv self ID data size rtr hwf hrtr hsz.1 hsz.2
    refine ⟨_, _, hcall, rfl, rfl, ?_, rfl, ?_, ?_⟩
    · show out.length = self.m_cmsg.length
      rw [houtlen, hwf.1]
    · intro j hj
      have hj2 : ¬ j < frameCount size := by
        have : ((frameCount size : Nat) : Int) ≤ (j : Int) := hj
        omega
      show out[j]? = _
      rw [hget j, if_neg hj2]
    · intro j hj
      have hj2 : j < frameCount size := by
        have : (j : Int) < ((frameCount size : Nat) : Int) := hj
        omega
      obtain ⟨old, f, hold, hf, _, hchunk, _, _, _, hdrop⟩ :=
        segment_frame self ID rtr data size out hwf hsz.1 hsz.2 hget j hj2
      have hif : (if (j : Int) + 1 = ((frameCount size : Nat) : Int) then size % 8 else 8) =
          chunkAt (frameCount size) (size % 8) j := by
        rw [hchunk]
        by_cases h : j + 1 = frameCount size
        · rw [if_pos h, if_pos (by omega)]
        · rw [if_neg h, if_neg (by omega)]
      refine ⟨old, f, hold, hf, ?_⟩
      show f.data.drop (if (j : Int) + 1 = ((frameCount size : Nat) : Int) then _ else _) =
        old.data.drop (if (j : Int) + 1 = ((frameCount size : Nat) : Int) then _ else _)
      rw [hif]
      exact hdrop
  constructor
  · by_cases hrtr : rtr = 1
    · subst hrtr
      obtain ⟨old, hold, hcall⟩ := WriteDataFrame_rtr drv self ID data size hwf
      have hlen : 0 < self.m_cmsg.length := by rw [hwf.1]; decide
      refine ⟨_, _, hcall, rfl, rfl, ?_, rfl, ?_, ?_⟩
      · show (self.m_cmsg.set 0 _).length = self.m_cmsg.length
        exact List.length_set _ _ _
      · intro j hj
        have hj0 : 0 ≠ j := by
          have : (1 : Int) ≤ (j : Int) := hj
          omega
        show (self.m_cmsg.set 0 _)[j]? = _
        exact List.getElem?_set_ne hj0
      · intro j hj
        have hj0 : j = 0 := by
          have : (j : Int) < 1 := hj
          omega
        subst hj0
        exact ⟨old, { old with id := ID % UINT_MOD, len := 16 }, hold,
          List.getElem?_set_self hlen, rfl⟩
    · have hsz : size ≤ 200 ∧ data.length = size := by
        rcases hsend with h | h
        · exact absurd h hrtr
        · exact h
      obtain ⟨o, c, hcall, htx, hbuf, hl, hobj, hrest, hfr⟩ := seg ID rtr hrtr hsz
      refine ⟨o, c, hcall, htx, hbuf, hl, hobj, hrest, ?_⟩
      intro j hj
      obtain ⟨old, f, hold, hf, hdrop⟩ := hfr j hj
      refine ⟨old, f, hold, hf, ?_⟩
      rw [if_neg hrtr]
      exact hdrop
  · intro hsz
    rw [WriteDataFrameNet_eq]
    exact seg _ 0 (by decide) hsz

/-- Witness of C17: 20 bytes sent with ID 0x100 and rtr = 0. -/
theorem C17_frame_effect_witness :
    sampleIF.wf ∧ ((0 : Nat) = 1 ∨ (20 ≤ 200 ∧ (List.range 20).length = 20)) ∧
    ((∃ o c, sampleIF.WriteDataFrame sampleDrv 0x100 (List.range 20) 20 0 = some o ∧ o.tx = [c] ∧
      c.cmsg = o.self.m_cmsg ∧ o.self.m_cmsg.length = sampleIF.m_cmsg.length ∧
      o.self = { sampleIF with m_cmsg := o.self.m_cmsg, m_len := o.self.m_len,
                               m_retvalue := o.self.m_retvalue } ∧
      (∀ j : Nat, c.len ≤ (j : Int) → o.self.m_cmsg[j]? = sampleIF.m_cmsg[j]?) ∧
      (∀ j : Nat, (j : Int) < c.len → ∃ old f, sampleIF.m_cmsg[j]? = some old ∧
        o.self.m_cmsg[j]? = some f ∧
        f.data.drop (if (0 : Nat) = 1 then 0 else if (j : Int) + 1 = c.len then 20 % 8 else 8) =
          old.data.drop
            (if (0 : Nat) = 1 then 0 else if (j : Int) + 1 = c.len then 20 % 8 else 8))) ∧
    (20 ≤ 200 ∧ (List.range 20).length = 20 →
      ∃ o c, sampleIF.WriteDataFrameNet sampleDrv (List.range 20) 20 = some o ∧ o.tx = [c] ∧
        c.cmsg = o.self.m_cmsg ∧ o.self.m_cmsg.length = sampleIF.m_cmsg.length ∧
        o.self = { sampleIF with m_cmsg := o.self.m_cmsg, m_len := o.self.m_len,
                                 m_retvalue := o.self.m_retvalue } ∧
        (∀ j : Nat, c.len ≤ (j : Int) → o.self.m_cmsg[j]? = sampleIF.m_cmsg[j]?) ∧
        (∀ j : Nat, (j : Int) < c.len → ∃ old f, sampleIF.m_cmsg[j]? = some old ∧
          o.self.m_cmsg[j]? = some f ∧
          f.data.drop (if (j : Int) + 1 = c.len then 20 % 8 else 8) =
            old.data.drop (if (j : Int) + 1 = c.len then 20 % 8 else 8)))) :=
  ⟨by decide, by decide,
    C17_frame_effect sampleDrv sampleIF 0x100 (List.range 20) 20 0 (by decide) (by decide)⟩

/-- The checks of the embedding are live: when the payload memory is shorter
than `size` says, the read of the last chunk is outside it, and so is the
write to slot 0 of a frame buffer without slots. -/
theorem WriteDataFrame_out_of_bounds :
    sampleIF.WriteDataFrame sampleDrv 0x100 [1, 2, 3] 4 0 = none ∧
    sampleIF.WriteDataFrameNet sampleDrv [1, 2, 3] 4 = none ∧
    ({ sampleIF with m_cmsg := [] } : CanIF).WriteDataFrame sampleDrv 0x100 [1, 2, 3, 4] 4 0 =
      none ∧
    ({ sampleIF with m_cmsg := [] } : CanIF).WriteDataFrame sampleDrv 0x100 [] 0 1 = none := by
  decide

/-- C18: for an object of the declared layout, every size below 2^32, every
rtr and every payload whose length is the size argument, both overloads
return a result: no access to the frame buffer or to the payload is outside
it (the embedding returns none for such an access), and the frame count
handed to canWrite, above which no slot is written, is at most 25. -/
theorem C18_bounds_safe (drv : Ntcan) (self : CanIF) (ID : Nat) (data : List Nat)
    (size rtr : Nat) (hwf : self.wf) (hsize : size < 4294967296) (hdata : data.length = size) :
    (∃ o, self.WriteDataFrame drv ID data size rtr = some o ∧
      o.self.m_cmsg.length = CAN_BUFFER_SIZE ∧
      ∀ c ∈ o.tx, c.len ≤ 25 ∧
        ∀ j : Nat, c.len ≤ (j : Int) → o.self.m_cmsg[j]? = self.m_cmsg[j]?) ∧
    (∃ o, self.WriteDataFrameNet drv data size = some o ∧
      o.self.m_cmsg.length = CAN_BUFFER_SIZE ∧
      ∀ c ∈ o.tx, c.len ≤ 25 ∧
        ∀ j : Nat, c.len ≤ (j : Int) → o.self.m_cmsg[j]? = self.m_cmsg[j]?) := by
  have key : ∀ ID rtr : Nat, ∃ o, self.WriteDataFrame drv ID data size rtr = some o ∧
      o.self.m_cmsg.length = CAN_BUFFER_SIZE ∧
      ∀ c ∈ o.tx, c.len ≤ 25 ∧
        ∀ j : Nat, c.len ≤ (j : Int) → o.self.m_cmsg[j]? = self.m_cmsg[j]? := by
    intro ID rtr
    rcases WriteDataFrame_total drv self ID data size rtr hwf hsize hdata with
      ⟨hrtr, old, hold, hcall⟩ | ⟨hrtr, hgt, hcall⟩ | ⟨hrtr, hle, out, hcall, houtlen, hget⟩
    · refine ⟨_, hcall, ?_, ?_⟩
      · show (self.m_cmsg.set 0 _).length = CAN_BUFFER_SIZE
        rw [List.length_set, hwf.1]
      · intro c hc
        have hceq : c = TxCall.mk self.m_Canhandle
            (self.m_cmsg.set 0 { old with id := ID % UINT_MOD, len := 16 }) 1 :=
          List.mem_singleton.mp hc
        subst hceq
        refine ⟨?_, ?_⟩
        · show (1 : Int) ≤ 25
          decide
        intro j hj
        have hj0 : 0 ≠ j := by
          have : (1 : Int) ≤ (j : Int) := hj
          omega
        show (self.m_cmsg.set 0 _)[j]? = _
        exact List.getElem?_set_ne hj0
    · refine ⟨_, hcall, hwf.1, ?_⟩
      intro c hc
      simp [aborted] at hc
    · refine ⟨_, hcall, houtlen, ?_⟩
      intro c hc
      have hceq : c = TxCall.mk self.m_Canhandle out ((frameCount size : Nat) : Int) :=
        List.mem_singleton.mp hc
      subst hceq
      have hcnt : frameCount size ≤ CAN_BUFFER_SIZE := (frameCount_le_iff size hsize).mpr hle
      refine ⟨?_, ?_⟩
      · show ((frameCount size : Nat) : Int) ≤ 25
        unfold CAN_BUFFER_SIZE at hcnt
        omega
      · intro j hj
        have hj2 : ¬ j < frameCount size := by
          have : ((frameCount size : Nat) : Int) ≤ (j : Int) := hj
          omega
        show out[j]? = _
        rw [hget j, if_neg hj2]
  refine ⟨key ID rtr, ?_⟩
  rw [WriteDataFrameNet_eq]
  exact key _ 0

/-- Witness of C18: the largest payload that is sent, 200 bytes, with rtr = 7. -/
theorem C18_bounds_safe_witness :
    sampleIF.wf ∧ 200 < 4294967296 ∧ (List.replicate 200 9).length = 200 ∧
    ((∃ o, sampleIF.WriteDataFrame sampleDrv 0x100 (List.replicate 200 9) 200 7 = some o ∧
      o.self.m_cmsg.length = CAN_BUFFER_SIZE ∧
      ∀ c ∈ o.tx, c.len ≤ 25 ∧
        ∀ j : Nat, c.len ≤ (j : Int) → o.self.m_cmsg[j]? = sampleIF.m_cmsg[j]?) ∧
    (∃ o, sampleIF.WriteDataFrameNet sampleDrv (List.replicate 200 9) 200 = some o ∧
      o.self.m_cmsg.length = CAN_BUFFER_SIZE ∧
      ∀ c ∈ o.tx, c.len ≤ 25 ∧
        ∀ j : Nat, c.len ≤ (j : Int) → o.self.m_cmsg[j]? = sampleIF.m_cmsg[j]?)) :=
  ⟨by decide, by decide, List.length_replicate 200 9,
    C18_bounds_safe sampleDrv sampleIF 0x100 (List.replicate 200 9) 200 7
      (by decide) (by decide) (List.length_replicate 200 9)⟩
